import Mathlib

/-!
# Rate limiter, ban registry, alerting and audit log of `server.js`

A shallow embedding of the request pipeline of `src/server.js`:

* the Redis key/value store with per-key expiry (`get`, `incr`, `expire`, `set`, `flushDb`),
* the `rateLimiter` middleware (lines 61-85),
* the reset route (lines 33-42), the logging middleware (lines 90-102) and the three
  handlers (lines 105-119), chained in registration order by `app`.

* the `cors` layer (lines 14-17) and the route matching of Express in front of them.

Time is a natural number of seconds.  The reads and the `incr` of a request take effect at
its instant `now`; the awaited `expire` that follows takes effect `expireLag` seconds later.
A key whose expiry deadline is `d` is visible at `now` exactly when `now < d`.
What the outside world does during a request (failures, the lag, a conditional request,
the treatment of rejected promises by the framework) is chosen per request by an `Env`.
-/

namespace ApiAbuse

/-! ## Data model -/

/-- A Redis string value: either the decimal encoding of an integer or any other string. -/
inductive RVal where
  | int (n : Int)
  | str (s : String)
deriving DecidableEq, Repr

/-- A stored value together with its absolute expiry deadline (`none` = no TTL). -/
structure Entry where
  val : RVal
  expireAt : Option Nat
deriving DecidableEq, Repr

/-- The Redis database: an association list from keys to entries. -/
abbrev Store := List (String × Entry)

/-- The `Alert` mongoose model (lines 53-58); `type` is spelled `kind`. -/
structure Alert where
  timestamp : Nat
  ip : String
  kind : String
  severity : String
deriving DecidableEq, Repr

/-- The `Log` mongoose model (lines 45-51). -/
structure Log where
  timestamp : Nat
  ip : String
  endpoint : String
  method : String
  status : Nat
deriving DecidableEq, Repr

/-- Everything the server persists: the Redis store and the two Mongo collections. -/
structure State where
  store : Store
  alerts : List Alert
  logs : List Log
deriving DecidableEq, Repr

/-- The fields of an Express request that the server reads. -/
structure Req where
  ip : String
  method : String
  path : String
  originalUrl : String
deriving DecidableEq, Repr

/-- What the outside world does during one request: which awaited operation rejects,
the value drawn by `Math.random()` (in thousandths), the seconds that pass between the
`incr` of line 72 and the `expire` of line 73 taking effect, whether the request is a
conditional one whose validators match the response (the header test of `req.fresh`), and
whether the framework passes a rejected middleware promise to its error handler (Express 5)
or leaves it unhandled (Express 4). -/
structure Env where
  getFails : Bool
  incrFails : Bool
  expireFails : Bool
  setFails : Bool
  flushError : Option String
  alertSaveFails : Bool
  logSaveFails : Bool
  findFails : Bool
  random : Nat
  expireLag : Nat
  fresh : Bool
  forwardsRejections : Bool
deriving DecidableEq, Repr

/-- The environment in which every operation succeeds, `expire` follows `incr` at once, the
request is unconditional and rejected promises stay unhandled. -/
def Env.ok (random : Nat) : Env :=
  { getFails := false, incrFails := false, expireFails := false, setFails := false,
    flushError := none, alertSaveFails := false, logSaveFails := false,
    findFails := false, random := random, expireLag := 0, fresh := false,
    forwardsRejections := false }

/-- No store or database operation fails under `env`. -/
def Env.noFailure (env : Env) : Bool :=
  !env.getFails && !env.incrFails && !env.expireFails && !env.setFails &&
  env.flushError.isNone && !env.alertSaveFails && !env.logSaveFails && !env.findFails

/-- A command sent to Redis. -/
inductive Cmd where
  | get (key : String)
  | incr (key : String)
  | expire (key : String) (seconds : Nat)
  | set (key : String) (value : String)
  | flushDb
deriving DecidableEq, Repr

/-- A response body. -/
inductive Body where
  | text (s : String)
  | error (msg : String)
  | balance (amount : Nat) (currency : String)
  | status (s : String)
  | stats (logs : List Log) (alerts : List Alert)
  | empty
deriving DecidableEq, Repr

/-- How a middleware invocation ends: it calls `next()`, it sends a response, or its
promise rejects (nothing is sent by it and `next()` is not called). -/
inductive Outcome where
  | next
  | respond (status : Nat) (body : Body)
  | threw
deriving DecidableEq, Repr

/-- Result of one `rateLimiter` invocation: new state, outcome, Redis commands issued in
order, and the value returned by `incr` when it returned one. -/
structure Step where
  state : State
  outcome : Outcome
  cmds : List Cmd
  count : Option Int
deriving DecidableEq, Repr

/-! ## The Redis store -/

/-- An entry is visible at `now` when it has no deadline or the deadline is still ahead. -/
def Entry.live (e : Entry) (now : Nat) : Bool :=
  match e.expireAt with
  | none => true
  | some d => decide (now < d)

/-- The live entry stored under `k` at time `now`. -/
def lookup : Store → Nat → String → Option Entry
  | [], _, _ => none
  | (k', e) :: rest, now, k =>
    if k' = k then (if e.live now then some e else none) else lookup rest now k

/-- Store `e` under `k`, replacing whatever was there. -/
def put (st : Store) (k : String) (e : Entry) : Store :=
  (k, e) :: st.filter (fun p => !decide (p.1 = k))

/-- Redis `GET`. -/
def redisGet (st : Store) (now : Nat) (k : String) : Option RVal :=
  (lookup st now k).map Entry.val

/-- Largest value of a Redis integer (signed 64 bit). -/
def int64Max : Int := 9223372036854775807

/-- Redis `INCR`: a missing key counts as 0 and is created without TTL; an existing
integer keeps its TTL; a non-integer or an overflow is an error (`none`). -/
def redisIncr (st : Store) (now : Nat) (k : String) : Option (Store × Int) :=
  match lookup st now k with
  | none => some (put st k ⟨RVal.int 1, none⟩, 1)
  | some ⟨RVal.int n, ttl⟩ =>
    if n = int64Max then none else some (put st k ⟨RVal.int (n + 1), ttl⟩, n + 1)
  | some ⟨RVal.str _, _⟩ => none

/-- Redis `EXPIRE`: sets the deadline of a live key to `now + seconds`. -/
def redisExpire (st : Store) (now : Nat) (k : String) (seconds : Nat) : Store :=
  match lookup st now k with
  | none => st
  | some e => put st k ⟨e.val, some (now + seconds)⟩

/-- Redis `SET` without options: the key holds the string and has no TTL. -/
def redisSet (st : Store) (k : String) (v : String) : Store :=
  put st k ⟨RVal.str v, none⟩

/-- Redis `FLUSHDB`. -/
def flushDb (_st : Store) : Store := []

/-- JavaScript truthiness of the reply of `GET` (`null` and the empty string are falsy). -/
def truthy : Option RVal → Bool
  | none => false
  | some (RVal.int _) => true
  | some (RVal.str s) => decide (s ≠ "")

/-! ## The rate limiter (lines 61-85) -/

/-- `s.startsWith(pre)` on the characters of the two strings. -/
def startsWith (s pre : String) : Bool :=
  pre.data.isPrefixOf s.data

/-- The exemption test of line 63. -/
def isExempt (path : String) : Bool :=
  startsWith path "/dashboard" || decide (path = "/reset-redis")

/-- The key of the window counter of a client (line 67). -/
def rateKey (ip : String) : String := "rate:" ++ ip

/-- The key of the ban record of a client (lines 69 and 76). -/
def blockedKey (ip : String) : String := "blocked:" ++ ip

/-- The alert emitted at a ban transition (lines 77-81). -/
def banAlert (now : Nat) (ip : String) : Alert :=
  { timestamp := now, ip := ip, kind := "Rate Limit Exceeded", severity := "High" }

/-- The ban transition of lines 76-82, entered with the incremented store. -/
def banTransition (env : Env) (now : Nat) (ip : String) (s : State) (st : Store)
    (count : Int) (cmds : List Cmd) : Step :=
  let cmds1 := cmds ++ [Cmd.set (blockedKey ip) "true"]
  if env.setFails then ⟨{ s with store := st }, Outcome.threw, cmds1, some count⟩
  else
    let st1 := redisSet st (blockedKey ip) "true"
    if env.alertSaveFails then ⟨{ s with store := st1 }, Outcome.threw, cmds1, some count⟩
    else
      ⟨{ s with store := st1, alerts := s.alerts ++ [banAlert now ip] },
        Outcome.respond 429 (Body.error "Too Many Requests"), cmds1, some count⟩

/-- Lines 75-84, entered once the counter has been incremented (and armed if new). -/
def afterCount (env : Env) (now : Nat) (ip : String) (s : State) (st : Store)
    (count : Int) (cmds : List Cmd) : Step :=
  if count > 100 then banTransition env now ip s st count cmds
  else ⟨{ s with store := st }, Outcome.next, cmds, some count⟩

/-- The `rateLimiter` middleware. The read of `blocked:C` and the `incr` take effect at `now`,
the `expire` at `now + env.expireLag`. -/
def rateLimiter (env : Env) (now : Nat) (req : Req) (s : State) : Step :=
  if isExempt req.path then ⟨s, Outcome.next, [], none⟩
  else
    let ip := req.ip
    let key := rateKey ip
    if env.getFails then ⟨s, Outcome.threw, [Cmd.get (blockedKey ip)], none⟩
    else if truthy (redisGet s.store now (blockedKey ip)) then
      ⟨s, Outcome.respond 403 (Body.error "IP Blocked"), [Cmd.get (blockedKey ip)], none⟩
    else if env.incrFails then
      ⟨s, Outcome.threw, [Cmd.get (blockedKey ip), Cmd.incr key], none⟩
    else
      match redisIncr s.store now key with
      | none => ⟨s, Outcome.threw, [Cmd.get (blockedKey ip), Cmd.incr key], none⟩
      | some (st1, count) =>
        if count = 1 then
          if env.expireFails then
            ⟨{ s with store := st1 }, Outcome.threw,
              [Cmd.get (blockedKey ip), Cmd.incr key, Cmd.expire key 60], some count⟩
          else
            afterCount env now ip s (redisExpire st1 (now + env.expireLag) key 60) count
              [Cmd.get (blockedKey ip), Cmd.incr key, Cmd.expire key 60]
        else
          afterCount env now ip s st1 count [Cmd.get (blockedKey ip), Cmd.incr key]

/-! ## The application: routes and middleware in registration order -/

/-- How the handling of a request by the whole application ends: a layer sets a status code
and answers, no layer answers and the framework sends its 404, a layer rejects and the
framework's error handler sends its 500, or nothing is sent. -/
inductive Final where
  | responded (status : Nat) (body : Body)
  | notFound
  | serverError
  | noResponse
deriving DecidableEq, Repr

/-- The status code set on the response when it is answered. `notFound` is the framework's
own 404 for a request that no layer answers, `serverError` its own 500. -/
def Final.status : Final → Option Nat
  | Final.responded st _ => some st
  | Final.notFound => some 404
  | Final.serverError => some 500
  | Final.noResponse => none

/-- Result of one request through the application: new state, how the application answers,
the status code that goes out to the client (if any), and the Redis commands issued. -/
structure AppStep where
  state : State
  final : Final
  sent : Option Nat
  cmds : List Cmd
deriving DecidableEq, Repr

/-- The record built inside the wrapped `res.send` (lines 93-98). -/
def logRecord (now : Nat) (req : Req) (status : Nat) : Log :=
  { timestamp := now, ip := req.ip, endpoint := req.originalUrl, method := req.method,
    status := status }

/-- Calling `res.send`/`res.json` with the current status code. When the logging
middleware has run (`wrapped`), the replaced `send` first saves a `Log` (not awaited). -/
def resSend (env : Env) (now : Nat) (req : Req) (wrapped : Bool) (status : Nat)
    (s : State) : State :=
  if wrapped && !env.logSaveFails then
    { s with logs := s.logs ++ [logRecord now req status] }
  else s

/-- The request method is `GET` or `HEAD`. -/
def isGetOrHead (req : Req) : Bool :=
  decide (req.method = "GET") || decide (req.method = "HEAD")

/-- The status code that Express's own `res.send` puts on the wire when it is called with
`status` set: a 2xx (or 304) answer to a fresh conditional `GET`/`HEAD` becomes 304. -/
def sentStatus (env : Env) (req : Req) (status : Nat) : Nat :=
  if env.fresh && isGetOrHead req &&
      (decide (200 ≤ status ∧ status < 300) || decide (status = 304)) then 304
  else status

/-- Express's default route matching of a path against a literal pattern: letter case is
ignored and one trailing slash is allowed. -/
def routeMatches (pattern path : String) : Bool :=
  decide (path.data.map Char.toLower = pattern.data.map Char.toLower) ||
  decide (path.data.map Char.toLower = pattern.data.map Char.toLower ++ ['/'])

/-- A route registered with `app.get`: it also serves `HEAD` requests. -/
def getRoute (pattern : String) (req : Req) : Bool :=
  isGetOrHead req && routeMatches pattern req.path

/-- A route registered with `app.post`. -/
def postRoute (pattern : String) (req : Req) : Bool :=
  decide (req.method = "POST") && routeMatches pattern req.path

/-- What becomes of a request when an `async` layer rejects: Express 5 passes the error to
its default error handler, which answers 500; Express 4 leaves the request unanswered. -/
def rejected (env : Env) (s : State) (cmds : List Cmd) : AppStep :=
  if env.forwardsRejections then ⟨s, Final.serverError, some 500, cmds⟩
  else ⟨s, Final.noResponse, none, cmds⟩

/-- The reset route (lines 33-42); it is registered before `rateLimiter` and the logger,
so its `res.send` is the original one. -/
def resetRoute (env : Env) (now : Nat) (req : Req) (s : State) : AppStep :=
  match env.flushError with
  | none =>
    ⟨resSend env now req false 200 { s with store := flushDb s.store },
      Final.responded 200 (Body.text "✅ Redis memory cleared! You are no longer banned."),
      some (sentStatus env req 200), [Cmd.flushDb]⟩
  | some msg =>
    ⟨resSend env now req false 500 s,
      Final.responded 500 (Body.text ("Error clearing Redis: " ++ msg)),
      some (sentStatus env req 500), [Cmd.flushDb]⟩

/-- The documents returned by `find().sort(timestamp: -1).limit(n)`. -/
def newest {α : Type} (ts : α → Nat) (n : Nat) (xs : List α) : List α :=
  (xs.mergeSort (fun a b => decide (ts b ≤ ts a))).take n

/-- The route handlers (lines 105-119), reached with `res.send` already wrapped. -/
def handlers (env : Env) (now : Nat) (req : Req) (s : State) : AppStep :=
  if getRoute "/api/balance" req then
    ⟨resSend env now req true 200 s, Final.responded 200 (Body.balance 5000 "USD"),
      some (sentStatus env req 200), []⟩
  else if postRoute "/api/transaction" req then
    if env.random > 900 then
      ⟨resSend env now req true 500 s, Final.responded 500 (Body.error "Failed"),
        some (sentStatus env req 500), []⟩
    else
      ⟨resSend env now req true 200 s, Final.responded 200 (Body.status "Success"),
        some (sentStatus env req 200), []⟩
  else if getRoute "/dashboard/stats" req then
    if env.findFails then rejected env s []
    else
      ⟨resSend env now req true 200 s,
        Final.responded 200
          (Body.stats (newest Log.timestamp 50 s.logs) (newest Alert.timestamp 10 s.alerts)),
        some (sentStatus env req 200), []⟩
  else ⟨s, Final.notFound, some 404, []⟩

/-- Does the `cors` layer (lines 14-17) answer this request itself? With the default
`preflightContinue`, it ends every `OPTIONS` request with status 204. -/
def isPreflight (req : Req) : Bool :=
  decide (req.method = "OPTIONS")

/-- Does the reset route (registered with `app.get('/reset-redis', ...)`) take this request? -/
def isResetRequest (req : Req) : Bool :=
  getRoute "/reset-redis" req

/-- The request gets past the `cors` layer and the reset route and so reaches `rateLimiter`. -/
def reachesLimiter (req : Req) : Bool :=
  !isPreflight req && !isResetRequest req

/-- One request through the application: `cors`, reset route, `rateLimiter`, logging
middleware, handlers. A response sent by `rateLimiter` goes through the original
`res.send`, because the logging middleware has not run yet. -/
def app (env : Env) (now : Nat) (req : Req) (s : State) : AppStep :=
  if isPreflight req then ⟨s, Final.responded 204 Body.empty, some 204, []⟩
  else if isResetRequest req then resetRoute env now req s
  else
    let r := rateLimiter env now req s
    match r.outcome with
    | Outcome.respond status body =>
      ⟨resSend env now req false status r.state, Final.responded status body,
        some (sentStatus env req status), r.cmds⟩
    | Outcome.threw => rejected env r.state r.cmds
    | Outcome.next =>
      let h := handlers env now req r.state
      ⟨h.state, h.final, h.sent, r.cmds ++ h.cmds⟩

/-- One timed request together with the behaviour of the outside world during it. -/
structure Event where
  env : Env
  now : Nat
  req : Req
deriving DecidableEq, Repr

/-- The state after a sequence of requests handled one after another. -/
def appRun (s : State) : List Event → State
  | [] => s
  | e :: es => appRun (app e.env e.now e.req s).state es

/-- The answers given to a sequence of requests handled one after another. -/
def appTrace (s : State) : List Event → List Final
  | [] => []
  | e :: es => (app e.env e.now e.req s).final :: appTrace (app e.env e.now e.req s).state es

/-- The state after a sequence of invocations of `rateLimiter`. -/
def limiterRun (s : State) : List Event → State
  | [] => s
  | e :: es => limiterRun (rateLimiter e.env e.now e.req s).state es

/-- The outcomes of a sequence of invocations of `rateLimiter`. -/
def limiterTrace (s : State) : List Event → List Outcome
  | [] => []
  | e :: es =>
    (rateLimiter e.env e.now e.req s).outcome ::
      limiterTrace (rateLimiter e.env e.now e.req s).state es

/-- The state of a freshly started deployment: empty store, no alerts, no logs. -/
def State.empty : State := { store := [], alerts := [], logs := [] }

/-! ## Specification vocabulary -/

/-- Client `C` is banned in `st`: `blocked:C` holds `"true"` and has no TTL, so it is read
back at every time. This is what the ban transition writes (line 76). -/
def Banned (C : String) (st : Store) : Prop :=
  ∀ t, lookup st t (blockedKey C) = some ⟨RVal.str "true", none⟩

/-- The request is served by the reset route and its `flushDb` succeeds. -/
def Event.flushes (e : Event) : Bool :=
  !isPreflight e.req && isResetRequest e.req && e.env.flushError.isNone

/-- The request arrives in the half-open interval of `len` seconds that starts at `a`. -/
def inWindow (len a : Nat) (e : Event) : Bool :=
  decide (a ≤ e.now) && decide (e.now < a + len)

/-- The request arrives before the deadline `d`. -/
def beforeDeadline (d : Nat) (e : Event) : Bool :=
  decide (e.now < d)

/-- The number of ban transitions of client `C` in a run: requests of `C` that the
application answers with 429. -/
def banTransitions (C : String) (s : State) : List Event → Nat
  | [] => 0
  | e :: es =>
    (if e.req.ip = C ∧ (app e.env e.now e.req s).final.status = some 429 then 1 else 0) +
      banTransitions C (app e.env e.now e.req s).state es

/-- The Alert records of client `C`. -/
def alertsOf (C : String) (alerts : List Alert) : List Alert :=
  alerts.filter (fun a => decide (a.ip = C))

/-- Every ban record present in the store has an Alert of the same client. -/
def AlertedBans (s : State) : Prop :=
  ∀ C t, (lookup s.store t (blockedKey C)).isSome → ∃ a ∈ s.alerts, a.ip = C

/-- Every window counter in the store is an integer between 1 and 101 with a deadline, and
a counter that has reached 101 belongs to a banned client. -/
def WindowInv (st : Store) : Prop :=
  ∀ ip t e, lookup st t (rateKey ip) = some e →
    ∃ (n : Int) (d : Nat), e = ⟨RVal.int n, some d⟩ ∧ 1 ≤ n ∧ n ≤ 101 ∧
      (n = 101 → Banned ip st)

/-- Every window counter in the store is an integer that is at least 1. -/
def CounterInv (st : Store) : Prop :=
  ∀ ip t e, lookup st t (rateKey ip) = some e →
    ∃ (n : Int) (ttl : Option Nat), e = ⟨RVal.int n, ttl⟩ ∧ 1 ≤ n

/-- The values returned by `incr` in a sequence of invocations of `rateLimiter`. -/
def limiterCounts (s : State) : List Event → List (Option Int)
  | [] => []
  | e :: es =>
    (rateLimiter e.env e.now e.req s).count ::
      limiterCounts (rateLimiter e.env e.now e.req s).state es

/-! ## Concrete inputs used to evaluate the model -/

/-- A non-exempt request of client `9.9.9.9`. -/
def balanceReq : Req :=
  { ip := "9.9.9.9", method := "GET", path := "/api/balance", originalUrl := "/api/balance" }

/-- A store in which client `9.9.9.9` is banned and its window counter stands at 101. -/
def bannedState : State :=
  { store := [("blocked:9.9.9.9", ⟨RVal.str "true", none⟩),
              ("rate:9.9.9.9", ⟨RVal.int 101, some 60⟩)],
    alerts := [banAlert 25 "9.9.9.9"],
    logs := [] }

/-- A store in which client `9.9.9.9` has used up its 100 requests of the window. -/
def fullWindowState : State :=
  { store := [("rate:9.9.9.9", ⟨RVal.int 100, some 60⟩)], alerts := [], logs := [] }


/-- An environment in which only `Alert.save()` fails. -/
def alertDownEnv : Env := { Env.ok 0 with alertSaveFails := true }

/-- An environment in which only `Alert.save()` fails and the framework passes rejected
promises to its error handler. -/
def alertDownForwardingEnv : Env :=
  { Env.ok 0 with alertSaveFails := true, forwardsRejections := true }

/-- An environment in which only the read of `blocked:C` fails. -/
def getDownEnv : Env := { Env.ok 0 with getFails := true }

/-- An environment in which nothing fails and the request is a fresh conditional one. -/
def freshEnv : Env := { Env.ok 0 with fresh := true }

/-- A `HEAD` request of client `9.9.9.9` for the balance route, in other letter case and
with a trailing slash. -/
def headBalanceReq : Req :=
  { ip := "9.9.9.9", method := "HEAD", path := "/API/Balance/", originalUrl := "/API/Balance/" }

/-- An `OPTIONS` request of client `9.9.9.9` for a non-exempt path. -/
def optionsReq : Req :=
  { ip := "9.9.9.9", method := "OPTIONS", path := "/api/balance",
    originalUrl := "/api/balance" }

/-- A request of client `9.9.9.9` that the reset route takes although its path is not the
one exempted on line 63. -/
def upperResetReq : Req :=
  { ip := "9.9.9.9", method := "GET", path := "/RESET-REDIS", originalUrl := "/RESET-REDIS" }

/-- A `GET /reset-redis` request of client `9.9.9.9`. -/
def resetReq : Req :=
  { ip := "9.9.9.9", method := "GET", path := "/reset-redis", originalUrl := "/reset-redis" }

/-- A request of client `9.9.9.9` at time 5 during which nothing fails. -/
def earlyEvent : Event := { env := Env.ok 0, now := 5, req := balanceReq }

/-- A request of client `9.9.9.9` at time 7 during which nothing fails. -/
def lateEvent : Event := { env := Env.ok 0, now := 7, req := balanceReq }

/-- A request of another client, long after the window of `9.9.9.9` has expired. -/
def otherEvent : Event :=
  { env := Env.ok 950, now := 100,
    req := { ip := "1.2.3.4", method := "POST", path := "/api/transaction",
             originalUrl := "/api/transaction" } }

/-- A reset request whose `flushDb` fails. -/
def failedResetEvent : Event :=
  { env := { Env.ok 0 with flushError := some "connection lost" }, now := 200, req := resetReq }

/-- An `OPTIONS` request of client `9.9.9.9`. -/
def optionsEvent : Event := { env := Env.ok 0, now := 300, req := optionsReq }

/-- A successful reset request. -/
def resetEvent : Event := { env := Env.ok 0, now := 6, req := resetReq }

/-- The request with which `9.9.9.9` exceeds the budget of `fullWindowState`. -/
def overflowEvent : Event := { env := Env.ok 0, now := 30, req := balanceReq }

/-- A request of `9.9.9.9` long after its window has expired. -/
def muchLaterEvent : Event := { env := Env.ok 0, now := 5000, req := balanceReq }

/-- An environment in which nothing fails and `expire` takes effect one second after
`incr`. -/
def lagEnv : Env := { Env.ok 0 with expireLag := 1 }

/-- An environment in which nothing fails and `expire` takes effect two seconds after
`incr`. -/
def lagEnv2 : Env := { Env.ok 0 with expireLag := 2 }

/-- Requests of `9.9.9.9`: one at second 0 whose `expire` lags by a second, 99 at second 1
and one at second 60. -/
def laggedRun : List Event :=
  [⟨lagEnv, 0, balanceReq⟩] ++ List.replicate 99 ⟨Env.ok 0, 1, balanceReq⟩ ++
    [⟨Env.ok 0, 60, balanceReq⟩]

/-- Requests of `9.9.9.9`: 100 at second 5, each `expire` lagging by two seconds, and 100 at
second 67, when the first window has just expired. -/
def twoWindowRun : List Event :=
  List.replicate 100 ⟨lagEnv2, 5, balanceReq⟩ ++ List.replicate 100 ⟨Env.ok 0, 67, balanceReq⟩

/-- A run of `9.9.9.9` with a ban transition: one request, a reset, 100 requests that are
passed on, the request that exceeds the budget (429), and one more (403). -/
def banRun : List Event :=
  [earlyEvent, resetEvent] ++ List.replicate 100 earlyEvent ++ [lateEvent, lateEvent]

/-! ## Facts about the store -/

theorem lookup_filter_ne (st : Store) (now : Nat) (k k' : String) (h : k ≠ k') :
    lookup (st.filter (fun p => !decide (p.1 = k))) now k' = lookup st now k' := by
  induction st with
  | nil => rfl
  | cons hd tl ih =>
    obtain ⟨a, e⟩ := hd
    by_cases ha : a = k
    · subst ha
      simp [List.filter, lookup, h, ih]
    · simp [List.filter, lookup, ha, ih]

theorem lookup_put (st : Store) (now : Nat) (k k' : String) (e : Entry) :
    lookup (put st k e) now k' =
      if k = k' then (if e.live now then some e else none) else lookup st now k' := by
  by_cases h : k = k'
  · simp [put, lookup, h]
  · simp [put, lookup, h, lookup_filter_ne st now k k' h]

theorem lookup_put_same (st : Store) (now : Nat) (k : String) (e : Entry)
    (h : e.live now = true) : lookup (put st k e) now k = some e := by
  simp [lookup_put, h]

theorem lookup_put_other (st : Store) (now : Nat) (k k' : String) (e : Entry) (h : k ≠ k') :
    lookup (put st k e) now k' = lookup st now k' := by
  simp [lookup_put, h]

/-- An entry visible at a later time is visible, unchanged, at any earlier time. -/
theorem lookup_earlier (st : Store) (t t' : Nat) (k : String) (e : Entry) (ht : t ≤ t')
    (h : lookup st t' k = some e) : lookup st t k = some e := by
  induction st with
  | nil => simp [lookup] at h
  | cons hd tl ih =>
    obtain ⟨a, x⟩ := hd
    by_cases ha : a = k
    · simp only [lookup, ha, if_true] at h ⊢
      by_cases hl : x.live t' = true
      · simp only [hl, if_true] at h
        have hl2 : x.live t = true := by
          unfold Entry.live at hl ⊢
          cases hx : x.expireAt with
          | none => simp
          | some d => simp [hx] at hl ⊢; omega
        simp [hl2, h]
      · simp [hl] at h
    · simp only [lookup, ha, if_false] at h ⊢
      exact ih h

/-- A key that is absent or expired stays so as time passes. -/
theorem lookup_none_later (st : Store) (t t' : Nat) (k : String) (ht : t ≤ t')
    (h : lookup st t k = none) : lookup st t' k = none := by
  cases h2 : lookup st t' k with
  | none => rfl
  | some e => rw [lookup_earlier st t t' k e ht h2] at h; cases h

theorem rateKey_ne_blockedKey (a b : String) : rateKey a ≠ blockedKey b := by
  intro h
  have h2 := congrArg String.data h
  simp [rateKey, blockedKey, String.data_append] at h2

theorem blockedKey_ne_rateKey (a b : String) : blockedKey a ≠ rateKey b :=
  fun h => rateKey_ne_blockedKey b a h.symm

theorem rateKey_inj (a b : String) (h : rateKey a = rateKey b) : a = b := by
  have h2 := congrArg String.data h
  simp [rateKey, String.data_append] at h2
  exact String.ext h2

theorem blockedKey_inj (a b : String) (h : blockedKey a = blockedKey b) : a = b := by
  have h2 := congrArg String.data h
  simp [blockedKey, String.data_append] at h2
  exact String.ext h2

/-! ## Exempt paths -/

theorem isExempt_false_iff (path : String) :
    isExempt path = false ↔ startsWith path "/dashboard" = false ∧ path ≠ "/reset-redis" := by
  simp [isExempt]

/-- C5: on an exempt path (it starts with `/dashboard` or equals `/reset-redis`),
`rateLimiter` calls `next()`, sends no command to the store and leaves the store, the
alerts and the logs exactly as they were, whatever the client and the store state. -/
theorem exempt_path_bypasses_store (env : Env) (now : Nat) (req : Req) (s : State)
    (h : startsWith req.path "/dashboard" = true ∨ req.path = "/reset-redis") :
    (rateLimiter env now req s).outcome = Outcome.next ∧
    (rateLimiter env now req s).cmds = [] ∧
    (rateLimiter env now req s).state = s := by
  have hx : isExempt req.path = true := by
    rcases h with h | h
    · simp [isExempt, h]
    · simp [isExempt, h]
  simp [rateLimiter, hx]

theorem exempt_path_bypasses_store_witness :
    (startsWith "/dashboard/stats" "/dashboard" = true ∨ "/dashboard/stats" = "/reset-redis") ∧
    truthy (redisGet bannedState.store 70 (blockedKey "9.9.9.9")) = true ∧
    (rateLimiter (Env.ok 0) 70 ⟨"9.9.9.9", "GET", "/dashboard/stats", "/dashboard/stats"⟩
        bannedState).outcome = Outcome.next ∧
    (rateLimiter (Env.ok 0) 70 ⟨"9.9.9.9", "GET", "/dashboard/stats", "/dashboard/stats"⟩
        bannedState).cmds = [] ∧
    (rateLimiter (Env.ok 0) 70 ⟨"9.9.9.9", "GET", "/dashboard/stats", "/dashboard/stats"⟩
        bannedState).state = bannedState :=
  ⟨Or.inl (by decide), by decide,
    exempt_path_bypasses_store (Env.ok 0) 70
      ⟨"9.9.9.9", "GET", "/dashboard/stats", "/dashboard/stats"⟩ bannedState
      (Or.inl (by decide))⟩

/-- C9 fails as stated: `/dashboardx` is not under `/dashboard/` and is not the reset path,
yet a banned client requesting it is passed on without any store command. -/
theorem gate_bypassed_outside_dashboard_directory :
    startsWith "/dashboardx" "/dashboard/" = false ∧ "/dashboardx" ≠ "/reset-redis" ∧
    truthy (redisGet bannedState.store 0 (blockedKey "9.9.9.9")) = true ∧
    rateLimiter (Env.ok 0) 0 ⟨"9.9.9.9", "GET", "/dashboardx", "/dashboardx"⟩ bannedState =
      ⟨bannedState, Outcome.next, [], none⟩ := by
  decide

/-- C9 (amended): when the path neither starts with `/dashboard` nor equals `/reset-redis`,
`rateLimiter` first reads `blocked:C`; if that read succeeds and C is not banned it next
increments `rate:C`; and it calls `next()` only if C is not banned and the incremented count
is at most 100. -/
theorem non_exempt_request_is_gated (env : Env) (now : Nat) (req : Req) (s : State)
    (hd : startsWith req.path "/dashboard" = false) (hr : req.path ≠ "/reset-redis") :
    (rateLimiter env now req s).cmds.head? = some (Cmd.get (blockedKey req.ip)) ∧
    (env.getFails = false → truthy (redisGet s.store now (blockedKey req.ip)) = false →
      (rateLimiter env now req s).cmds.take 2 =
        [Cmd.get (blockedKey req.ip), Cmd.incr (rateKey req.ip)]) ∧
    ((rateLimiter env now req s).outcome = Outcome.next →
      env.getFails = false ∧ truthy (redisGet s.store now (blockedKey req.ip)) = false ∧
      ∃ st1 n, redisIncr s.store now (rateKey req.ip) = some (st1, n) ∧
        (rateLimiter env now req s).count = some n ∧ n ≤ 100) := by
  have hx : isExempt req.path = false := (isExempt_false_iff _).2 ⟨hd, hr⟩
  unfold rateLimiter
  simp only [hx, Bool.false_eq_true, if_false]
  by_cases hg : env.getFails = true
  · simp [hg]
  · simp only [hg, if_false]
    by_cases hb : truthy (redisGet s.store now (blockedKey req.ip)) = true
    · simp [hb]
    · simp only [hb, if_false]
      by_cases hi : env.incrFails = true
      · simp [hi]
      · simp only [hi, if_false]
        cases hinc : redisIncr s.store now (rateKey req.ip) with
        | none => simp
        | some p =>
          obtain ⟨st1, n⟩ := p
          simp only
          by_cases h1 : n = 1
          · subst h1
            by_cases he : env.expireFails = true
            · simp [he]
            · simp only [he, if_false]
              simp [afterCount, hg, hb]
              exact ⟨st1, 1, ⟨rfl, rfl⟩, rfl, by decide⟩
          · simp only [h1, if_false]
            unfold afterCount
            by_cases hc : n > 100
            · simp only [hc, if_true]
              unfold banTransition
              by_cases hs : env.setFails = true
              · simp [hs]
              · by_cases ha : env.alertSaveFails = true
                · simp [hs, ha]
                · simp [hs, ha]
            · simp only [hc, if_false]
              simp [hg, hb]
              exact ⟨st1, n, ⟨rfl, rfl⟩, rfl, by omega⟩

theorem non_exempt_request_is_gated_witness :
    startsWith balanceReq.path "/dashboard" = false ∧ balanceReq.path ≠ "/reset-redis" ∧
    (rateLimiter (Env.ok 0) 5 balanceReq State.empty).cmds.head? =
      some (Cmd.get (blockedKey balanceReq.ip)) :=
  ⟨by decide, by decide,
    (non_exempt_request_is_gated (Env.ok 0) 5 balanceReq State.empty
      (by decide) (by decide)).1⟩

/-! ## Single steps of the rate limiter -/

/-- The step of a non-exempt request that finds the client banned. -/
theorem rateLimiter_banned (env : Env) (now : Nat) (req : Req) (s : State)
    (hx : isExempt req.path = false) (hg : env.getFails = false)
    (hb : truthy (redisGet s.store now (blockedKey req.ip)) = true) :
    rateLimiter env now req s =
      ⟨s, Outcome.respond 403 (Body.error "IP Blocked"), [Cmd.get (blockedKey req.ip)], none⟩ := by
  simp [rateLimiter, hx, hg, hb]

/-- The step of a non-exempt request of a client that is not banned, once `incr` has
answered with `n`. -/
theorem rateLimiter_counted (env : Env) (now : Nat) (req : Req) (s : State) (st1 : Store)
    (n : Int) (hx : isExempt req.path = false) (hg : env.getFails = false)
    (hb : truthy (redisGet s.store now (blockedKey req.ip)) = false)
    (hi : env.incrFails = false)
    (hinc : redisIncr s.store now (rateKey req.ip) = some (st1, n)) :
    rateLimiter env now req s =
      if n = 1 then
        if env.expireFails then
          ⟨{ s with store := st1 }, Outcome.threw,
            [Cmd.get (blockedKey req.ip), Cmd.incr (rateKey req.ip),
              Cmd.expire (rateKey req.ip) 60], some n⟩
        else
          afterCount env now req.ip s (redisExpire st1 (now + env.expireLag) (rateKey req.ip) 60) n
            [Cmd.get (blockedKey req.ip), Cmd.incr (rateKey req.ip),
              Cmd.expire (rateKey req.ip) 60]
      else
        afterCount env now req.ip s st1 n
          [Cmd.get (blockedKey req.ip), Cmd.incr (rateKey req.ip)] := by
  simp [rateLimiter, hx, hg, hb, hi, hinc]

/-- Case analysis of lines 75-84: to establish `P` of the result of `afterCount` it is
enough to establish it of each of its four possible results. -/
theorem afterCount_cases (P : Step → Prop) (env : Env) (now : Nat) (ip : String) (s : State)
    (st : Store) (n : Int) (cmds : List Cmd)
    (hnext : ¬ n > 100 → P ⟨{ s with store := st }, Outcome.next, cmds, some n⟩)
    (hset : n > 100 → env.setFails = true →
      P ⟨{ s with store := st }, Outcome.threw, cmds ++ [Cmd.set (blockedKey ip) "true"], some n⟩)
    (halert : n > 100 → env.setFails = false → env.alertSaveFails = true →
      P ⟨{ s with store := redisSet st (blockedKey ip) "true" }, Outcome.threw,
        cmds ++ [Cmd.set (blockedKey ip) "true"], some n⟩)
    (hban : n > 100 → env.setFails = false → env.alertSaveFails = false →
      P ⟨{ s with store := redisSet st (blockedKey ip) "true",
                  alerts := s.alerts ++ [banAlert now ip] },
        Outcome.respond 429 (Body.error "Too Many Requests"),
        cmds ++ [Cmd.set (blockedKey ip) "true"], some n⟩) :
    P (afterCount env now ip s st n cmds) := by
  unfold afterCount
  by_cases hc : n > 100
  · simp only [hc, if_true]
    unfold banTransition
    cases hs : env.setFails with
    | true => simpa [hs] using hset hc hs
    | false =>
      cases ha : env.alertSaveFails with
      | true => simpa [hs, ha] using halert hc hs ha
      | false => simpa [hs, ha] using hban hc hs ha
  · simpa only [hc, if_false] using hnext hc

/-- Case analysis of `rateLimiter`: to establish `P` of its result it is enough to establish
it of the result of each path through lines 62-74 (and of `afterCount` for lines 75-84). -/
theorem rateLimiter_cases (P : Step → Prop) (env : Env) (now : Nat) (req : Req) (s : State)
    (hexempt : isExempt req.path = true → P ⟨s, Outcome.next, [], none⟩)
    (hget : isExempt req.path = false → env.getFails = true →
      P ⟨s, Outcome.threw, [Cmd.get (blockedKey req.ip)], none⟩)
    (hbanned : isExempt req.path = false → env.getFails = false →
      truthy (redisGet s.store now (blockedKey req.ip)) = true →
      P ⟨s, Outcome.respond 403 (Body.error "IP Blocked"), [Cmd.get (blockedKey req.ip)], none⟩)
    (hincr : isExempt req.path = false → env.getFails = false →
      truthy (redisGet s.store now (blockedKey req.ip)) = false →
      (env.incrFails = true ∨ redisIncr s.store now (rateKey req.ip) = none) →
      P ⟨s, Outcome.threw, [Cmd.get (blockedKey req.ip), Cmd.incr (rateKey req.ip)], none⟩)
    (hexpire : ∀ st1, isExempt req.path = false → env.getFails = false →
      truthy (redisGet s.store now (blockedKey req.ip)) = false → env.incrFails = false →
      redisIncr s.store now (rateKey req.ip) = some (st1, 1) → env.expireFails = true →
      P ⟨{ s with store := st1 }, Outcome.threw,
        [Cmd.get (blockedKey req.ip), Cmd.incr (rateKey req.ip),
          Cmd.expire (rateKey req.ip) 60], some 1⟩)
    (hfirst : ∀ st1, isExempt req.path = false → env.getFails = false →
      truthy (redisGet s.store now (blockedKey req.ip)) = false → env.incrFails = false →
      redisIncr s.store now (rateKey req.ip) = some (st1, 1) → env.expireFails = false →
      P (afterCount env now req.ip s (redisExpire st1 (now + env.expireLag) (rateKey req.ip) 60) 1
        [Cmd.get (blockedKey req.ip), Cmd.incr (rateKey req.ip),
          Cmd.expire (rateKey req.ip) 60]))
    (hlater : ∀ st1 n, isExempt req.path = false → env.getFails = false →
      truthy (redisGet s.store now (blockedKey req.ip)) = false → env.incrFails = false →
      redisIncr s.store now (rateKey req.ip) = some (st1, n) → n ≠ 1 →
      P (afterCount env now req.ip s st1 n
        [Cmd.get (blockedKey req.ip), Cmd.incr (rateKey req.ip)])) :
    P (rateLimiter env now req s) := by
  cases hx : isExempt req.path with
  | true => simpa [rateLimiter, hx] using hexempt hx
  | false =>
    cases hg : env.getFails with
    | true => simpa [rateLimiter, hx, hg] using hget hx hg
    | false =>
      cases hb : truthy (redisGet s.store now (blockedKey req.ip)) with
      | true => rw [rateLimiter_banned env now req s hx hg hb]; exact hbanned hx hg hb
      | false =>
        cases hi : env.incrFails with
        | true => simpa [rateLimiter, hx, hg, hb, hi] using hincr hx hg hb (Or.inl hi)
        | false =>
          cases hinc : redisIncr s.store now (rateKey req.ip) with
          | none => simpa [rateLimiter, hx, hg, hb, hi, hinc] using hincr hx hg hb (Or.inr hinc)
          | some p =>
            obtain ⟨st1, n⟩ := p
            rw [rateLimiter_counted env now req s st1 n hx hg hb hi hinc]
            by_cases h1 : n = 1
            · subst h1
              cases he : env.expireFails with
              | true => simpa [he] using hexpire st1 hx hg hb hi hinc he
              | false => simpa [he] using hfirst st1 hx hg hb hi hinc he
            · simpa only [h1, if_false] using hlater st1 n hx hg hb hi hinc h1

theorem afterCount_logs (env : Env) (now : Nat) (ip : String) (s : State) (st : Store)
    (n : Int) (cmds : List Cmd) : (afterCount env now ip s st n cmds).state.logs = s.logs := by
  apply afterCount_cases (fun r => r.state.logs = s.logs) <;> intros <;> rfl

/-- `rateLimiter` never touches the Log collection. -/
theorem rateLimiter_logs (env : Env) (now : Nat) (req : Req) (s : State) :
    (rateLimiter env now req s).state.logs = s.logs := by
  apply rateLimiter_cases (fun r => r.state.logs = s.logs) <;> intros <;>
    first | rfl | exact afterCount_logs _ _ _ _ _ _ _

/-- A value written by `SET` is read back at every later time. -/
theorem lookup_redisSet_same (st : Store) (t : Nat) (k v : String) :
    lookup (redisSet st k v) t k = some ⟨RVal.str v, none⟩ := by
  simp [redisSet, lookup_put, Entry.live]

/-! ## Facts about the application -/

theorem lookup_redisIncr_other (st : Store) (now : Nat) (k : String) (st1 : Store) (n : Int)
    (t : Nat) (k' : String) (h : redisIncr st now k = some (st1, n)) (hk : k ≠ k') :
    lookup st1 t k' = lookup st t k' := by
  unfold redisIncr at h
  cases hl : lookup st now k with
  | none =>
    simp only [hl, Option.some.injEq, Prod.mk.injEq] at h
    rw [← h.1, lookup_put_other _ _ _ _ _ hk]
  | some e =>
    obtain ⟨v, ttl⟩ := e
    cases v with
    | int m =>
      simp only [hl] at h
      by_cases hm : m = int64Max
      · simp [hm] at h
      · simp only [hm, if_false, Option.some.injEq, Prod.mk.injEq] at h
        rw [← h.1, lookup_put_other _ _ _ _ _ hk]
    | str x => simp [hl] at h

theorem lookup_redisExpire_other (st : Store) (now : Nat) (k : String) (secs t : Nat)
    (k' : String) (hk : k ≠ k') : lookup (redisExpire st now k secs) t k' = lookup st t k' := by
  unfold redisExpire
  cases lookup st now k with
  | none => rfl
  | some e => exact lookup_put_other _ _ _ _ _ hk

theorem lookup_redisSet_other (st : Store) (k v : String) (t : Nat) (k' : String)
    (hk : k ≠ k') : lookup (redisSet st k v) t k' = lookup st t k' :=
  lookup_put_other _ _ _ _ _ hk

theorem banned_redisSet (C ip : String) (st : Store) (h : Banned C st) :
    Banned C (redisSet st (blockedKey ip) "true") := by
  intro t
  by_cases hk : blockedKey ip = blockedKey C
  · rw [← hk]; exact lookup_redisSet_same st t _ _
  · rw [lookup_redisSet_other _ _ _ _ _ hk]; exact h t

theorem banned_redisIncr (C ip : String) (st st1 : Store) (now : Nat) (n : Int)
    (hinc : redisIncr st now (rateKey ip) = some (st1, n)) (h : Banned C st) :
    Banned C st1 := by
  intro t
  rw [lookup_redisIncr_other st now _ st1 n t _ hinc (rateKey_ne_blockedKey ip C)]
  exact h t

theorem banned_redisExpire (C ip : String) (st : Store) (now secs : Nat) (h : Banned C st) :
    Banned C (redisExpire st now (rateKey ip) secs) := by
  intro t
  rw [lookup_redisExpire_other st now _ secs t _ (rateKey_ne_blockedKey ip C)]
  exact h t

theorem afterCount_preserves_banned (C : String) (env : Env) (now : Nat) (ip : String)
    (s : State) (st : Store) (n : Int) (cmds : List Cmd) (h : Banned C st) :
    Banned C (afterCount env now ip s st n cmds).state.store := by
  apply afterCount_cases (fun r => Banned C r.state.store) <;> intros <;>
    first | exact h | exact banned_redisSet C ip st h

/-- No step of `rateLimiter` removes or changes an existing ban. -/
theorem rateLimiter_preserves_banned (C : String) (env : Env) (now : Nat) (req : Req)
    (s : State) (h : Banned C s.store) : Banned C (rateLimiter env now req s).state.store := by
  apply rateLimiter_cases (fun r => Banned C r.state.store)
  · intro _; exact h
  · intro _ _; exact h
  · intro _ _ _; exact h
  · intro _ _ _ _; exact h
  · intro st1 _ _ _ _ hinc _; exact banned_redisIncr C req.ip _ st1 now 1 hinc h
  · intro st1 _ _ _ _ hinc _
    exact afterCount_preserves_banned C env now req.ip s _ 1 _
      (banned_redisExpire C req.ip st1 _ 60 (banned_redisIncr C req.ip _ st1 now 1 hinc h))
  · intro st1 n _ _ _ _ hinc _
    exact afterCount_preserves_banned C env now req.ip s _ n _
      (banned_redisIncr C req.ip _ st1 now n hinc h)

theorem resSend_store (env : Env) (now : Nat) (req : Req) (w : Bool) (st : Nat) (s : State) :
    (resSend env now req w st s).store = s.store := by
  unfold resSend; split <;> rfl

theorem resSend_alerts (env : Env) (now : Nat) (req : Req) (w : Bool) (st : Nat) (s : State) :
    (resSend env now req w st s).alerts = s.alerts := by
  unfold resSend; split <;> rfl

theorem resSend_unwrapped (env : Env) (now : Nat) (req : Req) (st : Nat) (s : State) :
    resSend env now req false st s = s := by
  simp [resSend]

/-- Express's `send` changes the status code only to 304, and only for a fresh conditional
`GET`/`HEAD` answered 2xx or 304. -/
theorem sentStatus_cases (env : Env) (req : Req) (st : Nat) :
    sentStatus env req st = st ∨
    (sentStatus env req st = 304 ∧ env.fresh = true ∧ isGetOrHead req = true ∧
      200 ≤ st ∧ st < 300) := by
  unfold sentStatus
  split
  · rename_i h
    simp only [Bool.and_eq_true, Bool.or_eq_true, decide_eq_true_eq] at h
    rcases h.2 with h2 | h2
    · exact Or.inr ⟨rfl, h.1.1, h.1.2, h2.1, h2.2⟩
    · exact Or.inl h2.symm
  · exact Or.inl rfl

theorem sentStatus_of_not_fresh (env : Env) (req : Req) (st : Nat) (h : env.fresh = false) :
    sentStatus env req st = st := by
  simp [sentStatus, h]

theorem sentStatus_of_error (env : Env) (req : Req) (st : Nat) (h : 305 ≤ st) :
    sentStatus env req st = st := by
  rcases sentStatus_cases env req st with h1 | ⟨-, -, -, -, h2⟩
  · exact h1
  · omega

theorem sentStatus_ne_429 (env : Env) (req : Req) (st : Nat) (h : st ≠ 429) :
    sentStatus env req st ≠ 429 := by
  rcases sentStatus_cases env req st with h1 | ⟨h1, -⟩
  · rw [h1]; exact h
  · rw [h1]; decide

theorem rejected_state (env : Env) (s : State) (cmds : List Cmd) :
    (rejected env s cmds).state = s := by
  unfold rejected; split <;> rfl

theorem rejected_no_429 (env : Env) (s : State) (cmds : List Cmd) :
    (rejected env s cmds).final.status ≠ some 429 ∧ (rejected env s cmds).sent ≠ some 429 := by
  unfold rejected; split <;> simp [Final.status]

theorem rejected_not_responded (env : Env) (s : State) (cmds : List Cmd) (st : Nat)
    (b : Body) : (rejected env s cmds).final ≠ Final.responded st b := by
  unfold rejected; split <;> simp

theorem handlers_store (env : Env) (now : Nat) (req : Req) (s : State) :
    (handlers env now req s).state.store = s.store := by
  unfold handlers
  split_ifs <;> first | rfl | exact resSend_store _ _ _ _ _ _ | exact congrArg State.store (rejected_state _ _ _)

theorem handlers_alerts (env : Env) (now : Nat) (req : Req) (s : State) :
    (handlers env now req s).state.alerts = s.alerts := by
  unfold handlers
  split_ifs <;> first | rfl | exact resSend_alerts _ _ _ _ _ _ | exact congrArg State.alerts (rejected_state _ _ _)

theorem handlers_status_ne_429 (env : Env) (now : Nat) (req : Req) (s : State) :
    (handlers env now req s).final.status ≠ some 429 := by
  unfold handlers
  split_ifs <;> first | exact (rejected_no_429 _ _ _).1 | simp [Final.status]

/-- A handler that answers builds one Log record with the status code it has set, and
Express's `send` then decides the status code that goes out. -/
theorem handlers_logs (env : Env) (now : Nat) (req : Req) (s : State) (st : Nat) (b : Body)
    (hl : env.logSaveFails = false) (h : (handlers env now req s).final = Final.responded st b) :
    (handlers env now req s).state.logs = s.logs ++ [logRecord now req st] ∧
    (handlers env now req s).sent = some (sentStatus env req st) := by
  unfold handlers at h ⊢
  split_ifs at h ⊢
  · simp only [Final.responded.injEq] at h
    simp [resSend, hl, ← h.1]
  · simp only [Final.responded.injEq] at h
    simp [resSend, hl, ← h.1]
  · simp only [Final.responded.injEq] at h
    simp [resSend, hl, ← h.1]
  · exact absurd h (rejected_not_responded _ _ _ _ _)
  · simp only [Final.responded.injEq] at h
    simp [resSend, hl, ← h.1]

theorem app_preflight (env : Env) (now : Nat) (req : Req) (s : State)
    (h : isPreflight req = true) :
    app env now req s = ⟨s, Final.responded 204 Body.empty, some 204, []⟩ := by
  simp [app, h]

theorem app_reset_ok (env : Env) (now : Nat) (req : Req) (s : State)
    (hp : isPreflight req = false) (h : isResetRequest req = true)
    (hf : env.flushError = none) :
    app env now req s =
      ⟨{ s with store := [] },
        Final.responded 200 (Body.text "✅ Redis memory cleared! You are no longer banned."),
        some (sentStatus env req 200), [Cmd.flushDb]⟩ := by
  simp [app, hp, h, resetRoute, hf, resSend, flushDb]

theorem app_reset_failed (env : Env) (now : Nat) (req : Req) (s : State) (msg : String)
    (hp : isPreflight req = false) (h : isResetRequest req = true)
    (hf : env.flushError = some msg) :
    app env now req s =
      ⟨s, Final.responded 500 (Body.text ("Error clearing Redis: " ++ msg)),
        some (sentStatus env req 500), [Cmd.flushDb]⟩ := by
  simp [app, hp, h, resetRoute, hf, resSend]

theorem reachesLimiter_iff (req : Req) :
    reachesLimiter req = true ↔ isPreflight req = false ∧ isResetRequest req = false := by
  simp [reachesLimiter]

theorem app_of_respond (env : Env) (now : Nat) (req : Req) (s : State) (st : Nat) (b : Body)
    (h : reachesLimiter req = true)
    (hout : (rateLimiter env now req s).outcome = Outcome.respond st b) :
    app env now req s =
      ⟨(rateLimiter env now req s).state, Final.responded st b,
        some (sentStatus env req st), (rateLimiter env now req s).cmds⟩ := by
  obtain ⟨hp, hr⟩ := (reachesLimiter_iff req).1 h
  simp [app, hp, hr, hout, resSend_unwrapped]

theorem app_of_threw (env : Env) (now : Nat) (req : Req) (s : State)
    (h : reachesLimiter req = true)
    (hout : (rateLimiter env now req s).outcome = Outcome.threw) :
    app env now req s =
      rejected env (rateLimiter env now req s).state (rateLimiter env now req s).cmds := by
  obtain ⟨hp, hr⟩ := (reachesLimiter_iff req).1 h
  simp [app, hp, hr, hout]

theorem app_of_next (env : Env) (now : Nat) (req : Req) (s : State)
    (h : reachesLimiter req = true)
    (hout : (rateLimiter env now req s).outcome = Outcome.next) :
    app env now req s =
      ⟨(handlers env now req (rateLimiter env now req s).state).state,
        (handlers env now req (rateLimiter env now req s).state).final,
        (handlers env now req (rateLimiter env now req s).state).sent,
        (rateLimiter env now req s).cmds ++
          (handlers env now req (rateLimiter env now req s).state).cmds⟩ := by
  obtain ⟨hp, hr⟩ := (reachesLimiter_iff req).1 h
  simp [app, hp, hr, hout]

/-- The three ways in which the application changes the store and the alerts: not at all
(`cors` answers, or the flush of the reset route fails), by a successful flush, or by what
`rateLimiter` does. -/
theorem app_state_cases (env : Env) (now : Nat) (req : Req) (s : State) :
    ((app env now req s).state = s ∧
      (isPreflight req = true ∨ (isResetRequest req = true ∧ env.flushError ≠ none))) ∨
    (isPreflight req = false ∧ isResetRequest req = true ∧ env.flushError = none ∧
      (app env now req s).state = { s with store := [] }) ∨
    (reachesLimiter req = true ∧
      (app env now req s).state.store = (rateLimiter env now req s).state.store ∧
      (app env now req s).state.alerts = (rateLimiter env now req s).state.alerts) := by
  cases hp : isPreflight req with
  | true => rw [app_preflight _ _ _ _ hp]; exact Or.inl ⟨rfl, Or.inl rfl⟩
  | false =>
    cases hr : isResetRequest req with
    | true =>
      cases hm : env.flushError with
      | none =>
        rw [app_reset_ok _ _ _ _ hp hr hm]
        exact Or.inr (Or.inl ⟨rfl, rfl, rfl, rfl⟩)
      | some msg =>
        rw [app_reset_failed _ _ _ _ msg hp hr hm]
        exact Or.inl ⟨rfl, Or.inr ⟨rfl, by simp⟩⟩
    | false =>
      have h : reachesLimiter req = true := (reachesLimiter_iff req).2 ⟨hp, hr⟩
      refine Or.inr (Or.inr ⟨h, ?_⟩)
      cases hout : (rateLimiter env now req s).outcome with
      | next => rw [app_of_next _ _ _ _ h hout]; exact ⟨handlers_store _ _ _ _, handlers_alerts _ _ _ _⟩
      | respond st b => rw [app_of_respond _ _ _ _ st b h hout]; exact ⟨rfl, rfl⟩
      | threw => rw [app_of_threw _ _ _ _ h hout, rejected_state]; exact ⟨rfl, rfl⟩

/-- The application answers 429 only when `rateLimiter` is reached and answers 429. -/
theorem app_429 (env : Env) (now : Nat) (req : Req) (s : State)
    (h : (app env now req s).final.status = some 429) :
    reachesLimiter req = true ∧
      ∃ b, (rateLimiter env now req s).outcome = Outcome.respond 429 b := by
  cases hp : isPreflight req with
  | true => rw [app_preflight _ _ _ _ hp] at h; simp [Final.status] at h
  | false =>
    cases hr : isResetRequest req with
    | true =>
      cases hm : env.flushError with
      | none => rw [app_reset_ok _ _ _ _ hp hr hm] at h; simp [Final.status] at h
      | some msg => rw [app_reset_failed _ _ _ _ msg hp hr hm] at h; simp [Final.status] at h
    | false =>
      have hl : reachesLimiter req = true := (reachesLimiter_iff req).2 ⟨hp, hr⟩
      refine ⟨hl, ?_⟩
      cases hout : (rateLimiter env now req s).outcome with
      | next =>
        rw [app_of_next _ _ _ _ hl hout] at h
        exact absurd h (handlers_status_ne_429 _ _ _ _)
      | threw =>
        rw [app_of_threw _ _ _ _ hl hout] at h
        exact absurd h (rejected_no_429 _ _ _).1
      | respond st b =>
        rw [app_of_respond _ _ _ _ st b hl hout] at h
        simp only [Final.status, Option.some.injEq] at h
        subst h
        exact ⟨b, rfl⟩

/-- When `rateLimiter` rejects without answering, the application sends no 429. -/
theorem app_no_429_of_threw (env : Env) (now : Nat) (req : Req) (s : State)
    (hout : (rateLimiter env now req s).outcome = Outcome.threw) :
    (app env now req s).final.status ≠ some 429 ∧ (app env now req s).sent ≠ some 429 := by
  refine ⟨fun h => ?_, ?_⟩
  · obtain ⟨-, b, hb⟩ := app_429 env now req s h
    rw [hout] at hb; cases hb
  · cases hp : isPreflight req with
    | true => rw [app_preflight _ _ _ _ hp]; simp
    | false =>
      cases hr : isResetRequest req with
      | true =>
        cases hm : env.flushError with
        | none =>
          rw [app_reset_ok _ _ _ _ hp hr hm]
          simpa using sentStatus_ne_429 env req 200 (by decide)
        | some msg =>
          rw [app_reset_failed _ _ _ _ msg hp hr hm]
          simpa using sentStatus_ne_429 env req 500 (by decide)
      | false =>
        rw [app_of_threw _ _ _ _ ((reachesLimiter_iff req).2 ⟨hp, hr⟩) hout]
        exact (rejected_no_429 _ _ _).2

/-- A request that is not a successful reset leaves every existing ban in place. -/
theorem app_preserves_banned (C : String) (e : Event) (s : State) (hf : e.flushes = false)
    (h : Banned C s.store) : Banned C (app e.env e.now e.req s).state.store := by
  rcases app_state_cases e.env e.now e.req s with ⟨hs, -⟩ | ⟨hp, hr, hm, -⟩ | ⟨-, hs, -⟩
  · rw [hs]; exact h
  · simp [Event.flushes, hp, hr, hm] at hf
  · rw [hs]; exact rateLimiter_preserves_banned C _ _ _ s h

theorem appRun_preserves_banned (C : String) (evs : List Event) (s : State)
    (hf : ∀ m ∈ evs, m.flushes = false) (h : Banned C s.store) :
    Banned C (appRun s evs).store := by
  induction evs generalizing s with
  | nil => exact h
  | cons e es ih =>
    simp only [appRun]
    exact ih _ (fun m hm => hf m (List.mem_cons_of_mem _ hm))
      (app_preserves_banned C e s (hf e (List.mem_cons_self _ _)) h)

/-- A 429 sent by `rateLimiter` comes with `blocked:C` written. -/
theorem rateLimiter_429_bans (env : Env) (now : Nat) (req : Req) (s : State) (st : Nat)
    (b : Body) (h : (rateLimiter env now req s).outcome = Outcome.respond st b)
    (h429 : st = 429) : Banned req.ip (rateLimiter env now req s).state.store := by
  subst h429
  revert h
  apply rateLimiter_cases
    (fun r => r.outcome = Outcome.respond 429 b → Banned req.ip r.state.store)
  · intro _ h; cases h
  · intro _ _ h; cases h
  · intro _ _ _ h; simp at h
  · intro _ _ _ _ h; cases h
  · intro _ _ _ _ _ _ _ h; cases h
  · intro st1 _ _ _ _ _ _
    apply afterCount_cases (fun r => r.outcome = Outcome.respond 429 b → Banned req.ip r.state.store)
    · intro _ h; cases h
    · intro _ _ h; cases h
    · intro _ _ _ h; cases h
    · intro _ _ _ _ t; exact lookup_redisSet_same _ t _ _
  · intro st1 n _ _ _ _ _ _
    apply afterCount_cases (fun r => r.outcome = Outcome.respond 429 b → Banned req.ip r.state.store)
    · intro _ h; cases h
    · intro _ _ h; cases h
    · intro _ _ _ h; cases h
    · intro _ _ _ _ t; exact lookup_redisSet_same _ t _ _

/-- A request answered 429 by the application leaves its client banned. -/
theorem app_429_bans (env : Env) (now : Nat) (req : Req) (s : State)
    (h : (app env now req s).final.status = some 429) :
    Banned req.ip (app env now req s).state.store := by
  obtain ⟨hl, b, hb⟩ := app_429 env now req s h
  rw [app_of_respond _ _ _ _ 429 b hl hb]
  exact rateLimiter_429_bans env now req s 429 b hb rfl

/-! ## Failure of the alert store -/

/-- C8 fails as stated: with the counter of `9.9.9.9` at 100, the next request reaches the ban
transition (count 101), `Alert.save()` rejects, and no 429 is sent: the request stays
unanswered, or is answered 500 where the framework handles rejected promises. -/
theorem alert_save_failure_blocks_response :
    (rateLimiter alertDownEnv 30 balanceReq fullWindowState).count = some 101 ∧
    (rateLimiter alertDownEnv 30 balanceReq fullWindowState).outcome = Outcome.threw ∧
    (app alertDownEnv 30 balanceReq fullWindowState).final.status ≠ some 429 ∧
    (app alertDownEnv 30 balanceReq fullWindowState).sent = none ∧
    (app alertDownForwardingEnv 30 balanceReq fullWindowState).sent = some 500 := by
  decide

/-- C8 (amended): when `rateLimiter` reaches the ban transition (incremented count above 100),
has written `blocked:C`, and saving the Alert fails, the rejection leaves `rateLimiter` at
the awaited `save()`: line 82 is not reached, so no 429 is sent, `next()` is not called, no
Alert is stored, and `blocked:C` stays written. -/
theorem alert_save_failure_propagates (env : Env) (now : Nat) (req : Req) (s : State)
    (st1 : Store) (n : Int) (hx : isExempt req.path = false) (hg : env.getFails = false)
    (hb : truthy (redisGet s.store now (blockedKey req.ip)) = false)
    (hi : env.incrFails = false)
    (hinc : redisIncr s.store now (rateKey req.ip) = some (st1, n)) (hn : n > 100)
    (hs : env.setFails = false) (ha : env.alertSaveFails = true) :
    (rateLimiter env now req s).outcome = Outcome.threw ∧
    (app env now req s).final.status ≠ some 429 ∧
    (app env now req s).sent ≠ some 429 ∧
    (rateLimiter env now req s).state.alerts = s.alerts ∧
    (app env now req s).state.alerts = s.alerts ∧
    Banned req.ip (rateLimiter env now req s).state.store := by
  have h1 : n ≠ 1 := by omega
  have hstep : rateLimiter env now req s =
      ⟨{ s with store := redisSet st1 (blockedKey req.ip) "true" }, Outcome.threw,
        [Cmd.get (blockedKey req.ip), Cmd.incr (rateKey req.ip),
          Cmd.set (blockedKey req.ip) "true"], some n⟩ := by
    rw [rateLimiter_counted env now req s st1 n hx hg hb hi hinc]
    simp [h1, afterCount, hn, banTransition, hs, ha]
  have hout : (rateLimiter env now req s).outcome = Outcome.threw := by rw [hstep]
  have hal : (rateLimiter env now req s).state.alerts = s.alerts := by rw [hstep]
  refine ⟨hout, (app_no_429_of_threw env now req s hout).1,
    (app_no_429_of_threw env now req s hout).2, hal, ?_, ?_⟩
  · rcases app_state_cases env now req s with ⟨h2, -⟩ | ⟨-, -, -, h2⟩ | ⟨-, -, h2⟩
    · rw [h2]
    · rw [h2]
    · rw [h2, hal]
  · intro t
    rw [hstep]
    exact lookup_redisSet_same st1 t (blockedKey req.ip) "true"

theorem alert_save_failure_propagates_witness :
    redisIncr fullWindowState.store 30 (rateKey balanceReq.ip) =
      some ([("rate:9.9.9.9", ⟨RVal.int 101, some 60⟩)], 101) ∧
    (rateLimiter alertDownEnv 30 balanceReq fullWindowState).outcome = Outcome.threw ∧
    (app alertDownEnv 30 balanceReq fullWindowState).sent ≠ some 429 ∧
    (rateLimiter alertDownEnv 30 balanceReq fullWindowState).state.alerts =
      fullWindowState.alerts :=
  ⟨by decide,
    (alert_save_failure_propagates alertDownEnv 30 balanceReq fullWindowState
      [("rate:9.9.9.9", ⟨RVal.int 101, some 60⟩)] 101
      (by decide) (by decide) (by decide) (by decide) (by decide) (by decide) (by decide)
      (by decide)).1,
    (alert_save_failure_propagates alertDownEnv 30 balanceReq fullWindowState
      [("rate:9.9.9.9", ⟨RVal.int 101, some 60⟩)] 101
      (by decide) (by decide) (by decide) (by decide) (by decide) (by decide) (by decide)
      (by decide)).2.2.1,
    (alert_save_failure_propagates alertDownEnv 30 balanceReq fullWindowState
      [("rate:9.9.9.9", ⟨RVal.int 101, some 60⟩)] 101
      (by decide) (by decide) (by decide) (by decide) (by decide) (by decide) (by decide)
      (by decide)).2.2.2.1⟩

/-! ## Reset -/

/-- C6: a `GET /reset-redis` request whose `flushDb` succeeds is answered 200 by the reset
route with `flushDb` as its only store command (the gate is never consulted), and leaves the
store empty; the next non-exempt request of any client whose store operations succeed is
then passed on with its counter at 1 and a deadline 60 seconds after its `expire`. -/
theorem reset_clears_bans_and_counters (env : Env) (now : Nat) (req : Req) (s : State)
    (hreq : req.method = "GET" ∧ req.path = "/reset-redis") (hflush : env.flushError = none) :
    (app env now req s).final =
      Final.responded 200 (Body.text "✅ Redis memory cleared! You are no longer banned.") ∧
    (app env now req s).cmds = [Cmd.flushDb] ∧
    (app env now req s).state.store = [] ∧
    (∀ (env2 : Env) (t : Nat) (req2 : Req), isExempt req2.path = false →
      env2.getFails = false → env2.incrFails = false → env2.expireFails = false →
      (rateLimiter env2 t req2 (app env now req s).state).outcome = Outcome.next ∧
      (rateLimiter env2 t req2 (app env now req s).state).count = some 1 ∧
      lookup (rateLimiter env2 t req2 (app env now req s).state).state.store t
        (rateKey req2.ip) = some ⟨RVal.int 1, some (t + env2.expireLag + 60)⟩) := by
  have hp : isPreflight req = false := by simp [isPreflight, hreq.1]
  have hr : isResetRequest req = true := by
    simp only [isResetRequest, getRoute, isGetOrHead, hreq.1, hreq.2]
    decide
  rw [app_reset_ok env now req s hp hr hflush]
  refine ⟨rfl, rfl, rfl, ?_⟩
  intro env2 t req2 hx hg hi he
  have hinc : redisIncr ([] : Store) t (rateKey req2.ip) =
      some (put [] (rateKey req2.ip) ⟨RVal.int 1, none⟩, 1) := by
    simp [redisIncr, lookup]
  have hb : truthy (redisGet ({ s with store := [] } : State).store t (blockedKey req2.ip))
      = false := by
    simp [redisGet, lookup, truthy]
  rw [rateLimiter_counted env2 t req2 _ _ 1 hx hg hb hi hinc]
  have hlive : t < t + env2.expireLag + 60 := by omega
  simp [he, afterCount, redisExpire, lookup_put, Entry.live, hlive]

theorem reset_clears_bans_and_counters_witness :
    (resetReq.method = "GET" ∧ resetReq.path = "/reset-redis") ∧
    truthy (redisGet bannedState.store 70 (blockedKey "9.9.9.9")) = true ∧
    (app (Env.ok 0) 70 resetReq bannedState).state.store = [] ∧
    (rateLimiter (Env.ok 0) 71 balanceReq (app (Env.ok 0) 70 resetReq bannedState).state).outcome
      = Outcome.next :=
  ⟨by decide, by decide,
    (reset_clears_bans_and_counters (Env.ok 0) 70 resetReq bannedState (by decide) rfl).2.2.1,
    ((reset_clears_bans_and_counters (Env.ok 0) 70 resetReq bannedState (by decide) rfl).2.2.2
      (Env.ok 0) 71 balanceReq (by decide) rfl rfl rfl).1⟩

/-! ## The audit log -/

/-- C3 fails as stated: the banned client `9.9.9.9` is answered 403 by the application and no
Log record is created, because `rateLimiter` answers before the logging middleware runs. -/
theorem rejected_request_is_not_logged :
    (app (Env.ok 0) 70 balanceReq bannedState).final =
      Final.responded 403 (Body.error "IP Blocked") ∧
    (app (Env.ok 0) 70 balanceReq bannedState).sent = some 403 ∧
    (app (Env.ok 0) 70 balanceReq bannedState).state.logs = bannedState.logs ∧
    bannedState.logs = [] := by
  decide

/-- C3 (amended): a request that `rateLimiter` passes on and a route handler answers gets
exactly one Log record (when its save succeeds), whose status is the status code set on the
response when `send` is called; that is the status code sent, unless the request is a fresh
conditional `GET`/`HEAD` answered 2xx, which Express's own `send` turns into 304 after the
record is built. A request answered by the `cors` layer, by the reset route, or rejected by
`rateLimiter` with 403 or 429, gets no Log record, since all three answer before the logging
middleware has wrapped `res.send`. -/
theorem log_record_only_for_handled_requests (env : Env) (now : Nat) (req : Req) (s : State) :
    (reachesLimiter req = false → (app env now req s).state.logs = s.logs) ∧
    (reachesLimiter req = true → ∀ st b,
      (rateLimiter env now req s).outcome = Outcome.respond st b →
      (app env now req s).final = Final.responded st b ∧
      (app env now req s).state.logs = s.logs) ∧
    (reachesLimiter req = true → (rateLimiter env now req s).outcome = Outcome.next →
      env.logSaveFails = false → ∀ st b, (app env now req s).final = Final.responded st b →
      (app env now req s).state.logs = s.logs ++ [logRecord now req st] ∧
      (app env now req s).sent = some (sentStatus env req st) ∧
      (sentStatus env req st = st ∨
        (sentStatus env req st = 304 ∧ env.fresh = true ∧ isGetOrHead req = true ∧
          200 ≤ st ∧ st < 300))) := by
  have hlogs : (rateLimiter env now req s).state.logs = s.logs := rateLimiter_logs env now req s
  refine ⟨?_, ?_, ?_⟩
  · intro hr
    cases hp : isPreflight req with
    | true => rw [app_preflight _ _ _ _ hp]
    | false =>
      have hr2 : isResetRequest req = true := by
        simpa [reachesLimiter, hp] using hr
      cases hm : env.flushError with
      | none => rw [app_reset_ok _ _ _ _ hp hr2 hm]
      | some msg => rw [app_reset_failed _ _ _ _ msg hp hr2 hm]
  · intro hr st b hout
    rw [app_of_respond _ _ _ _ st b hr hout]
    exact ⟨rfl, hlogs⟩
  · intro hr hout hl st b hfin
    rw [app_of_next _ _ _ _ hr hout] at hfin ⊢
    obtain ⟨h1, h2⟩ := handlers_logs env now req _ st b hl hfin
    exact ⟨by rw [h1, hlogs], h2, sentStatus_cases env req st⟩

theorem log_record_only_for_handled_requests_witness :
    reachesLimiter headBalanceReq = true ∧
    (rateLimiter freshEnv 5 headBalanceReq State.empty).outcome = Outcome.next ∧
    (app freshEnv 5 headBalanceReq State.empty).state.logs =
      State.empty.logs ++ [logRecord 5 headBalanceReq 200] ∧
    (app freshEnv 5 headBalanceReq State.empty).sent = some 304 :=
  ⟨by decide, by decide,
    ((log_record_only_for_handled_requests freshEnv 5 headBalanceReq State.empty).2.2
      (by decide) (by decide) (by decide) 200 (Body.balance 5000 "USD") (by decide)).1,
    by decide⟩

/-! ## Persistence of bans -/

/-- C2 fails as stated: after the ban transition of `9.9.9.9` (a 429), a later `OPTIONS`
request of that client for the non-exempt path `/api/balance` is answered 204 by the `cors`
layer, a `GET /RESET-REDIS` (not exempt by the test of line 63) is served by the reset
route, and a request during which the read of `blocked:C` fails gets no 403 either. -/
theorem banned_client_not_always_403 :
    (app overflowEvent.env overflowEvent.now overflowEvent.req fullWindowState).final.status =
      some 429 ∧
    isExempt optionsReq.path = false ∧ optionsReq.ip = overflowEvent.req.ip ∧
    (app (Env.ok 0) 40 optionsReq
      (app overflowEvent.env overflowEvent.now overflowEvent.req fullWindowState).state).sent =
      some 204 ∧
    isExempt upperResetReq.path = false ∧ upperResetReq.ip = overflowEvent.req.ip ∧
    (app (Env.ok 0) 40 upperResetReq
      (app overflowEvent.env overflowEvent.now overflowEvent.req fullWindowState).state).sent =
      some 200 ∧
    (app getDownEnv 40 balanceReq
      (app overflowEvent.env overflowEvent.now overflowEvent.req fullWindowState).state).sent =
      none := by
  decide

/-- C2 (amended): once a request of client C has been answered 429 (the ban transition,
which writes `blocked:C`), then after any further requests of any clients at any times and
under any failures, none of them a successful reset, every non-exempt request of C that
reaches `rateLimiter` (it is not an `OPTIONS` request, which `cors` answers, and is not taken
by the reset route) and whose read of `blocked:C` succeeds is rejected by `rateLimiter`
with 403, and status 403 is what the client gets. -/
theorem ban_persists_until_reset (C : String) (s0 : State) (e0 : Event) (mid : List Event)
    (e : Event) (hC0 : e0.req.ip = C)
    (h429 : (app e0.env e0.now e0.req s0).final.status = some 429)
    (hmid : ∀ m ∈ mid, m.flushes = false)
    (hC : e.req.ip = C) (hx : isExempt e.req.path = false)
    (hreach : reachesLimiter e.req = true) (hg : e.env.getFails = false) :
    (rateLimiter e.env e.now e.req (appRun (app e0.env e0.now e0.req s0).state mid)).outcome =
      Outcome.respond 403 (Body.error "IP Blocked") ∧
    (app e.env e.now e.req (appRun (app e0.env e0.now e0.req s0).state mid)).final =
      Final.responded 403 (Body.error "IP Blocked") ∧
    (app e.env e.now e.req (appRun (app e0.env e0.now e0.req s0).state mid)).sent =
      some 403 := by
  have hb0 : Banned C (app e0.env e0.now e0.req s0).state.store := by
    rw [← hC0]; exact app_429_bans _ _ _ _ h429
  have hb : Banned C (appRun (app e0.env e0.now e0.req s0).state mid).store :=
    appRun_preserves_banned C mid _ hmid hb0
  have ht : truthy (redisGet (appRun (app e0.env e0.now e0.req s0).state mid).store e.now
      (blockedKey e.req.ip)) = true := by
    rw [hC]
    simp [redisGet, hb e.now, truthy]
  have hout := rateLimiter_banned e.env e.now e.req _ hx hg ht
  have hout2 : (rateLimiter e.env e.now e.req
      (appRun (app e0.env e0.now e0.req s0).state mid)).outcome =
      Outcome.respond 403 (Body.error "IP Blocked") := by rw [hout]
  rw [app_of_respond _ _ _ _ 403 _ hreach hout2]
  exact ⟨hout2, rfl, by simp [sentStatus_of_error _ _ 403 (by omega)]⟩

theorem ban_persists_until_reset_witness :
    (app overflowEvent.env overflowEvent.now overflowEvent.req fullWindowState).final.status =
      some 429 ∧
    (∀ m ∈ [otherEvent, failedResetEvent, optionsEvent], m.flushes = false) ∧
    (app muchLaterEvent.env muchLaterEvent.now muchLaterEvent.req
      (appRun (app overflowEvent.env overflowEvent.now overflowEvent.req fullWindowState).state
        [otherEvent, failedResetEvent, optionsEvent])).sent = some 403 :=
  ⟨by decide, by decide,
    (ban_persists_until_reset "9.9.9.9" fullWindowState overflowEvent
      [otherEvent, failedResetEvent, optionsEvent] muchLaterEvent (by decide) (by decide)
      (by decide) (by decide) (by decide) (by decide) (by decide)).2.2⟩

/-! ## Steps of a client that is not banned, when nothing fails -/

theorem redisIncr_of_lookup_none (st : Store) (now : Nat) (k : String)
    (h : lookup st now k = none) :
    redisIncr st now k = some (put st k ⟨RVal.int 1, none⟩, 1) := by
  simp [redisIncr, h]

theorem redisIncr_of_lookup_int (st : Store) (now : Nat) (k : String) (m : Int)
    (ttl : Option Nat) (h : lookup st now k = some ⟨RVal.int m, ttl⟩) (hm : m ≠ int64Max) :
    redisIncr st now k = some (put st k ⟨RVal.int (m + 1), ttl⟩, m + 1) := by
  simp [redisIncr, h, hm]

theorem noFailure_fields (env : Env) (h : env.noFailure = true) :
    env.getFails = false ∧ env.incrFails = false ∧ env.expireFails = false ∧
    env.setFails = false ∧ env.flushError = none ∧ env.alertSaveFails = false ∧
    env.logSaveFails = false ∧ env.findFails = false := by
  simp only [Env.noFailure, Bool.and_eq_true, Bool.not_eq_true', Option.isNone_iff_eq_none] at h
  tauto

/-- The request that opens a window: the counter is created at 1 and armed for 60 seconds
from the instant at which `expire` takes effect. -/
theorem step_open (env : Env) (now : Nat) (req : Req) (s : State)
    (hx : isExempt req.path = false) (hg : env.getFails = false)
    (hb : truthy (redisGet s.store now (blockedKey req.ip)) = false)
    (hi : env.incrFails = false) (he : env.expireFails = false)
    (hl : lookup s.store now (rateKey req.ip) = none) :
    rateLimiter env now req s =
      ⟨{ s with store := put (put s.store (rateKey req.ip) ⟨RVal.int 1, none⟩) (rateKey req.ip)
                          ⟨RVal.int 1, some (now + env.expireLag + 60)⟩ },
        Outcome.next,
        [Cmd.get (blockedKey req.ip), Cmd.incr (rateKey req.ip), Cmd.expire (rateKey req.ip) 60],
        some 1⟩ := by
  rw [rateLimiter_counted env now req s _ 1 hx hg hb hi (redisIncr_of_lookup_none _ _ _ hl)]
  simp [he, afterCount, redisExpire, lookup_put, Entry.live]

/-- A request inside an open window below the threshold: the counter grows by one and keeps
its deadline; `expire` is not called. -/
theorem step_count (env : Env) (now : Nat) (req : Req) (s : State) (m : Int)
    (ttl : Option Nat) (hx : isExempt req.path = false) (hg : env.getFails = false)
    (hb : truthy (redisGet s.store now (blockedKey req.ip)) = false)
    (hi : env.incrFails = false)
    (hl : lookup s.store now (rateKey req.ip) = some ⟨RVal.int m, ttl⟩)
    (h1 : 1 ≤ m) (h2 : m < 100) :
    rateLimiter env now req s =
      ⟨{ s with store := put s.store (rateKey req.ip) ⟨RVal.int (m + 1), ttl⟩ },
        Outcome.next, [Cmd.get (blockedKey req.ip), Cmd.incr (rateKey req.ip)],
        some (m + 1)⟩ := by
  have hm : m ≠ int64Max := by unfold int64Max; omega
  rw [rateLimiter_counted env now req s _ (m + 1) hx hg hb hi
    (redisIncr_of_lookup_int _ _ _ m ttl hl hm)]
  have h3 : m + 1 ≠ 1 := by omega
  have h4 : ¬ m + 1 > 100 := by omega
  simp [h3, afterCount, h4]

/-- The request that exceeds the threshold: ban, alert, 429. -/
theorem step_ban (env : Env) (now : Nat) (req : Req) (s : State) (m : Int)
    (ttl : Option Nat) (hx : isExempt req.path = false) (hg : env.getFails = false)
    (hb : truthy (redisGet s.store now (blockedKey req.ip)) = false)
    (hi : env.incrFails = false) (hs : env.setFails = false)
    (ha : env.alertSaveFails = false)
    (hl : lookup s.store now (rateKey req.ip) = some ⟨RVal.int m, ttl⟩)
    (h1 : 100 ≤ m) (hm : m ≠ int64Max) :
    rateLimiter env now req s =
      ⟨{ s with store := redisSet (put s.store (rateKey req.ip) ⟨RVal.int (m + 1), ttl⟩)
                          (blockedKey req.ip) "true",
                alerts := s.alerts ++ [banAlert now req.ip] },
        Outcome.respond 429 (Body.error "Too Many Requests"),
        [Cmd.get (blockedKey req.ip), Cmd.incr (rateKey req.ip),
          Cmd.set (blockedKey req.ip) "true"],
        some (m + 1)⟩ := by
  rw [rateLimiter_counted env now req s _ (m + 1) hx hg hb hi
    (redisIncr_of_lookup_int _ _ _ m ttl hl hm)]
  have h3 : m + 1 ≠ 1 := by omega
  have h4 : m + 1 > 100 := by omega
  simp [h3, afterCount, h4, banTransition, hs, ha]

/-- A client that is not banned at some time is not banned later either, as long as the
store is not written. -/
theorem truthy_later (st : Store) (t t' : Nat) (k : String) (ht : t ≤ t')
    (h : truthy (redisGet st t k) = false) : truthy (redisGet st t' k) = false := by
  cases h2 : lookup st t' k with
  | none => simp [redisGet, h2, truthy]
  | some e =>
    have h3 := lookup_earlier st t t' k e ht h2
    simpa [redisGet, h2, h3] using h

theorem limiterTrace_cons (s : State) (e : Event) (es : List Event) :
    limiterTrace s (e :: es) =
      (rateLimiter e.env e.now e.req s).outcome ::
        limiterTrace (rateLimiter e.env e.now e.req s).state es := rfl

theorem limiterRun_cons (s : State) (e : Event) (es : List Event) :
    limiterRun s (e :: es) = limiterRun (rateLimiter e.env e.now e.req s).state es := rfl

theorem limiterTrace_nil (s : State) : limiterTrace s [] = [] := rfl

theorem limiterRun_nil (s : State) : limiterRun s [] = s := rfl

theorem limiterTrace_append (s : State) (xs ys : List Event) :
    limiterTrace s (xs ++ ys) = limiterTrace s xs ++ limiterTrace (limiterRun s xs) ys := by
  induction xs generalizing s with
  | nil => rfl
  | cons e es ih => simp [limiterTrace, limiterRun, ih]

theorem limiterRun_append (s : State) (xs ys : List Event) :
    limiterRun s (xs ++ ys) = limiterRun (limiterRun s xs) ys := by
  induction xs generalizing s with
  | nil => rfl
  | cons e es ih => simp [limiterRun, ih]

/-! ## One window: 100 requests pass, the 101st is banned -/

theorem redisGet_put_rate (st : Store) (t : Nat) (ip C : String) (e : Entry) :
    redisGet (put st (rateKey ip) e) t (blockedKey C) = redisGet st t (blockedKey C) := by
  simp [redisGet, lookup_put_other _ _ _ _ _ (rateKey_ne_blockedKey ip C)]

/-- Requests of client C that arrive before the deadline `d` of C's open window, while the
count stays within 100, are all passed on; each adds one to the counter and none moves the
deadline, writes a ban or creates an alert. -/
theorem window_fill (C : String) (t0 d : Nat) (evs : List Event) :
    ∀ (s : State) (n : Nat),
    (∀ e ∈ evs, e.req.ip = C ∧ isExempt e.req.path = false ∧ e.env.noFailure = true ∧
      t0 ≤ e.now ∧ e.now < d) →
    (∀ t, t0 ≤ t → truthy (redisGet s.store t (blockedKey C)) = false) →
    (∀ t, t < d → lookup s.store t (rateKey C) = some ⟨RVal.int n, some d⟩) →
    1 ≤ n → n + evs.length ≤ 100 →
    limiterTrace s evs = List.replicate evs.length Outcome.next ∧
    (∀ t, t0 ≤ t → truthy (redisGet (limiterRun s evs).store t (blockedKey C)) = false) ∧
    (∀ t, t < d → lookup (limiterRun s evs).store t (rateKey C) =
      some ⟨RVal.int ((n + evs.length : Nat) : Int), some d⟩) ∧
    (limiterRun s evs).alerts = s.alerts := by
  induction evs with
  | nil =>
    intro s n _ hnb hw _ _
    exact ⟨rfl, hnb, by simpa using hw, rfl⟩
  | cons e es ih =>
    intro s n hev hnb hw h1 hle
    obtain ⟨hip, hx, hok, ht0, htd⟩ := hev e (List.mem_cons_self _ _)
    obtain ⟨hg, hi, -, -, -, -, -, -⟩ := noFailure_fields e.env hok
    simp only [List.length_cons] at hle
    have hstep := step_count e.env e.now e.req s (n : Int) (some d) hx hg
      (by rw [hip]; exact hnb e.now ht0) hi (by rw [hip]; exact hw e.now htd)
      (by omega) (by omega)
    rw [hip] at hstep
    have hcast : ((n : Int) + 1) = ((n + 1 : Nat) : Int) := by push_cast; rfl
    rw [hcast] at hstep
    have hrec := ih
      { s with store := put s.store (rateKey C) ⟨RVal.int ((n + 1 : Nat) : Int), some d⟩ }
      (n + 1) (fun x hx2 => hev x (List.mem_cons_of_mem _ hx2))
      (by intro t ht; simp only [redisGet_put_rate]; exact hnb t ht)
      (by intro t ht; exact lookup_put_same _ _ _ _ (by simp [Entry.live, ht]))
      (by omega) (by omega)
    simp only [limiterTrace, limiterRun, hstep, List.length_cons, List.replicate_succ]
    have hn : n + (es.length + 1) = n + 1 + es.length := by omega
    rw [hn]
    exact ⟨by rw [hrec.1], hrec.2.1, hrec.2.2.1, hrec.2.2.2⟩

/-- C1: if client C is not banned and has no open window at `t0`, and C sends 101
non-exempt requests one after another within `[t0, t0 + 60)` with no failing operation,
then `rateLimiter` passes the first 100 on and answers the 101st with 429, after which
`blocked:C` is written and exactly one Alert has been added, with `ip = C`,
`type = "Rate Limit Exceeded"` and `severity = "High"`. -/
theorem threshold_then_ban (C : String) (s : State) (t0 : Nat) (first : List Event)
    (last : Event) (hlen : first.length = 100)
    (hev : ∀ e ∈ first ++ [last], e.req.ip = C ∧ isExempt e.req.path = false ∧
      e.env.noFailure = true ∧ t0 ≤ e.now ∧ e.now < t0 + 60)
    (hnb : truthy (redisGet s.store t0 (blockedKey C)) = false)
    (hnw : lookup s.store t0 (rateKey C) = none) :
    limiterTrace s (first ++ [last]) =
      List.replicate 100 Outcome.next ++
        [Outcome.respond 429 (Body.error "Too Many Requests")] ∧
    Banned C (limiterRun s (first ++ [last])).store ∧
    (limiterRun s (first ++ [last])).alerts =
      s.alerts ++ [⟨last.now, C, "Rate Limit Exceeded", "High"⟩] := by
  cases first with
  | nil => simp at hlen
  | cons e1 rest =>
    simp only [List.length_cons] at hlen
    have hrl : rest.length = 99 := by omega
    obtain ⟨hip, hx, hok, ht0, htd⟩ := hev e1 (by simp)
    obtain ⟨hg, hi, he, -, -, -, -, -⟩ := noFailure_fields e1.env hok
    have hstep := step_open e1.env e1.now e1.req s hx hg
      (by rw [hip]; exact truthy_later _ _ _ _ ht0 hnb) hi he
      (by rw [hip]; exact lookup_none_later _ _ _ _ ht0 hnw)
    rw [hip] at hstep
    have hfill := window_fill C t0 (e1.now + e1.env.expireLag + 60) rest
      { s with store := put (put s.store (rateKey C) ⟨RVal.int 1, none⟩) (rateKey C)
                          ⟨RVal.int 1, some (e1.now + e1.env.expireLag + 60)⟩ } 1
      (by
        intro x hx2
        obtain ⟨a, b, c, d1, d2⟩ := hev x (by simp [hx2])
        exact ⟨a, b, c, d1, by omega⟩)
      (by
        intro t ht
        simp only [redisGet_put_rate]
        exact truthy_later _ _ _ _ ht hnb)
      (by intro t ht; exact lookup_put_same _ _ _ _ (by simp [Entry.live, ht]))
      (by omega) (by omega)
    obtain ⟨hf1, hf2, hf3, hf4⟩ := hfill
    obtain ⟨lip, lx, lok, lt0, ltd⟩ := hev last (by simp)
    obtain ⟨lg, li, -, ls, -, la, -, -⟩ := noFailure_fields last.env lok
    rw [hrl] at hf3
    have hlast := step_ban last.env last.now last.req _ 100
      (some (e1.now + e1.env.expireLag + 60)) lx lg
      (by rw [lip]; exact hf2 last.now lt0) li ls la
      (by rw [lip]; simpa using hf3 last.now (by omega)) (by omega) (by decide)
    rw [lip] at hlast
    rw [List.cons_append, limiterTrace_cons, limiterRun_cons, hstep, limiterTrace_append,
      limiterRun_append, limiterTrace_cons, limiterRun_cons, limiterTrace_nil, limiterRun_nil,
      hf1, hrl, hlast]
    refine ⟨by simp [List.replicate_succ], ?_, ?_⟩
    · intro t; exact lookup_redisSet_same _ t _ _
    · show _ ++ [banAlert last.now C] = _
      rw [hf4]; rfl

theorem threshold_then_ban_witness :
    lookup State.empty.store 5 (rateKey "9.9.9.9") = none ∧
    limiterTrace State.empty (List.replicate 100 earlyEvent ++ [lateEvent]) =
      List.replicate 100 Outcome.next ++
        [Outcome.respond 429 (Body.error "Too Many Requests")] ∧
    (limiterRun State.empty (List.replicate 100 earlyEvent ++ [lateEvent])).alerts =
      State.empty.alerts ++ [⟨lateEvent.now, "9.9.9.9", "Rate Limit Exceeded", "High"⟩] :=
  ⟨by decide,
    (threshold_then_ban "9.9.9.9" State.empty 5 (List.replicate 100 earlyEvent) lateEvent
      (by simp)
      (by
        intro e he
        simp only [List.mem_append, List.mem_replicate, List.mem_singleton] at he
        rcases he with ⟨-, rfl⟩ | rfl <;> decide)
      (by decide) (by decide)).1,
    (threshold_then_ban "9.9.9.9" State.empty 5 (List.replicate 100 earlyEvent) lateEvent
      (by simp)
      (by
        intro e he
        simp only [List.mem_append, List.mem_replicate, List.mem_singleton] at he
        rcases he with ⟨-, rfl⟩ | rfl <;> decide)
      (by decide) (by decide)).2.2⟩

/-! ## A client that stays within the budget is never rejected -/

theorem filter_inWindow_tail (len a : Nat) (e : Event) (es : List Event) :
    (es.filter (inWindow len a)).length ≤ ((e :: es).filter (inWindow len a)).length := by
  rw [List.filter_cons]
  split
  · simp
  · exact Nat.le_refl _

theorem filter_beforeDeadline_mono (d d2 : Nat) (h : d ≤ d2) (es : List Event) :
    (es.filter (beforeDeadline d)).length ≤ (es.filter (beforeDeadline d2)).length := by
  induction es with
  | nil => simp
  | cons e es ih =>
    by_cases h1 : e.now < d
    · have h2 : e.now < d2 := by omega
      simp only [List.filter_cons, beforeDeadline, h1, h2, decide_True, if_true,
        List.length_cons]
      simp only [beforeDeadline] at ih
      omega
    · by_cases h2 : e.now < d2
      · simp only [List.filter_cons, beforeDeadline, h1, h2, decide_True, decide_False,
          if_true, Bool.false_eq_true, if_false, List.length_cons]
        simp only [beforeDeadline] at ih
        omega
      · simp only [List.filter_cons, beforeDeadline, h1, h2, decide_False,
          Bool.false_eq_true, if_false]
        simpa only [beforeDeadline] using ih

theorem limiterCounts_cons (s : State) (e : Event) (es : List Event) :
    limiterCounts s (e :: es) =
      (rateLimiter e.env e.now e.req s).count ::
        limiterCounts (rateLimiter e.env e.now e.req s).state es := rfl

/-- Run of requests of one client in time order, started either with no visible counter
or inside an open window with enough budget left, when `expire` lags behind `incr` by at
most `L` seconds: every request is passed on, `blocked:C` is left as it was and no alert is
created. -/
theorem sparse_run (C : String) (L : Nat) (evs : List Event) :
    ∀ (s : State),
    (∀ e ∈ evs, e.req.ip = C ∧ isExempt e.req.path = false ∧ e.env.noFailure = true ∧
      e.env.expireLag ≤ L) →
    evs.Pairwise (fun a b => a.now ≤ b.now) →
    (∀ a, (evs.filter (inWindow (60 + L) a)).length ≤ 100) →
    (∀ e ∈ evs, truthy (redisGet s.store e.now (blockedKey C)) = false) →
    ((∀ e ∈ evs, lookup s.store e.now (rateKey C) = none) ∨
      ∃ n d : Nat, 1 ≤ n ∧
        (∀ t, lookup s.store t (rateKey C) =
          if t < d then some ⟨RVal.int n, some d⟩ else none) ∧
        n + (evs.filter (beforeDeadline d)).length ≤ 100) →
    limiterTrace s evs = List.replicate evs.length Outcome.next ∧
    (∀ c ∈ limiterCounts s evs, ∃ n : Int, c = some n ∧ 1 ≤ n ∧ n ≤ 100) ∧
    (∀ t, lookup (limiterRun s evs).store t (blockedKey C) = lookup s.store t (blockedKey C)) ∧
    (limiterRun s evs).alerts = s.alerts := by
  induction evs with
  | nil =>
    intro s _ _ _ _ _
    exact ⟨rfl, fun c hc => (by simp [limiterCounts] at hc), fun _ => rfl, rfl⟩
  | cons e es ih =>
    intro s hev hsorted hsparse hnb hwin
    obtain ⟨hip, hx, hok, hlag⟩ := hev e (List.mem_cons_self _ _)
    obtain ⟨hg, hi, he, -, -, -, -, -⟩ := noFailure_fields e.env hok
    have hev2 : ∀ x ∈ es, x.req.ip = C ∧ isExempt x.req.path = false ∧
        x.env.noFailure = true ∧ x.env.expireLag ≤ L :=
      fun x hx2 => hev x (List.mem_cons_of_mem _ hx2)
    have hsorted2 := (List.pairwise_cons.1 hsorted).2
    have hge : ∀ x ∈ es, e.now ≤ x.now := (List.pairwise_cons.1 hsorted).1
    have hsparse2 : ∀ a, (es.filter (inWindow (60 + L) a)).length ≤ 100 :=
      fun a => Nat.le_trans (filter_inWindow_tail (60 + L) a e es) (hsparse a)
    have hbe : truthy (redisGet s.store e.now (blockedKey e.req.ip)) = false := by
      rw [hip]; exact hnb e (List.mem_cons_self _ _)
    -- the request opens a fresh window
    have hopen : lookup s.store e.now (rateKey C) = none →
        limiterTrace s (e :: es) = List.replicate (e :: es).length Outcome.next ∧
        (∀ c ∈ limiterCounts s (e :: es), ∃ n : Int, c = some n ∧ 1 ≤ n ∧ n ≤ 100) ∧
        (∀ t, lookup (limiterRun s (e :: es)).store t (blockedKey C) =
          lookup s.store t (blockedKey C)) ∧
        (limiterRun s (e :: es)).alerts = s.alerts := by
      intro hl
      have hstep := step_open e.env e.now e.req s hx hg hbe hi he (by rw [hip]; exact hl)
      rw [hip] at hstep
      have hcount : 1 + (es.filter (beforeDeadline (e.now + e.env.expireLag + 60))).length
          ≤ 100 := by
        have h1 := hsparse e.now
        have h2 : inWindow (60 + L) e.now e = true := by simp [inWindow]
        rw [List.filter_cons, if_pos h2, List.length_cons] at h1
        have h3 : es.filter (inWindow (60 + L) e.now) =
            es.filter (beforeDeadline (e.now + (60 + L))) := by
          apply List.filter_congr
          intro x hx2
          simp [inWindow, beforeDeadline, hge x hx2]
        rw [h3] at h1
        have h4 := filter_beforeDeadline_mono (e.now + e.env.expireLag + 60)
          (e.now + (60 + L)) (by omega) es
        omega
      have hrec := ih
        { s with store := put (put s.store (rateKey C) ⟨RVal.int 1, none⟩) (rateKey C)
                            ⟨RVal.int 1, some (e.now + e.env.expireLag + 60)⟩ }
        hev2 hsorted2 hsparse2
        (by
          intro x hx2
          simp only [redisGet_put_rate]
          exact hnb x (List.mem_cons_of_mem _ hx2))
        (Or.inr ⟨1, e.now + e.env.expireLag + 60, Nat.le_refl 1, by
          intro t
          simp [lookup_put, Entry.live], hcount⟩)
      rw [limiterTrace_cons, limiterRun_cons, limiterCounts_cons, hstep]
      refine ⟨by rw [hrec.1]; rfl, ?_, ?_, hrec.2.2.2⟩
      · intro c hc
        rcases List.mem_cons.1 hc with rfl | hc2
        · exact ⟨1, rfl, by omega, by omega⟩
        · exact hrec.2.1 c hc2
      · intro t
        rw [hrec.2.2.1 t, lookup_put_other _ _ _ _ _ (rateKey_ne_blockedKey C C),
          lookup_put_other _ _ _ _ _ (rateKey_ne_blockedKey C C)]
    rcases hwin with hnone | ⟨n, d, hn1, hlk, hcnt⟩
    · exact hopen (hnone e (List.mem_cons_self _ _))
    · by_cases hlive : e.now < d
      · -- the request falls into the open window
        have hb2 : beforeDeadline d e = true := by simp [beforeDeadline, hlive]
        rw [List.filter_cons, if_pos hb2, List.length_cons] at hcnt
        have hl : lookup s.store e.now (rateKey e.req.ip) = some ⟨RVal.int n, some d⟩ := by
          rw [hip, hlk e.now, if_pos hlive]
        have hstep := step_count e.env e.now e.req s (n : Int) (some d) hx hg hbe hi hl
          (by omega) (by omega)
        rw [hip] at hstep
        have hcast : ((n : Int) + 1) = ((n + 1 : Nat) : Int) := by push_cast; rfl
        rw [hcast] at hstep
        have hrec := ih
          { s with store := put s.store (rateKey C) ⟨RVal.int ((n + 1 : Nat) : Int), some d⟩ }
          hev2 hsorted2 hsparse2
          (by
            intro x hx2
            simp only [redisGet_put_rate]
            exact hnb x (List.mem_cons_of_mem _ hx2))
          (Or.inr ⟨n + 1, d, by omega, by
            intro t
            simp [lookup_put, Entry.live], by omega⟩)
        rw [limiterTrace_cons, limiterRun_cons, limiterCounts_cons, hstep]
        refine ⟨by rw [hrec.1]; rfl, ?_, ?_, hrec.2.2.2⟩
        · intro c hc
          rcases List.mem_cons.1 hc with rfl | hc2
          · exact ⟨((n + 1 : Nat) : Int), rfl, by omega, by omega⟩
          · exact hrec.2.1 c hc2
        · intro t
          rw [hrec.2.2.1 t, lookup_put_other _ _ _ _ _ (rateKey_ne_blockedKey C C)]
      · exact hopen (by rw [hlk e.now, if_neg hlive])

theorem laggedRun_sparse (a : Nat) : (laggedRun.filter (inWindow 60 a)).length ≤ 100 := by
  by_cases ha : a = 0
  · subst ha
    simp only [laggedRun, List.filter_append, List.filter_replicate, List.length_append]
    decide
  · have h1 : inWindow 60 a ⟨lagEnv, 0, balanceReq⟩ = false := by
      simp [inWindow]; omega
    simp only [laggedRun, List.filter_append, List.filter_cons, h1, List.filter_nil,
      List.length_append, Bool.false_eq_true, if_false, List.length_nil]
    have h2 := List.length_filter_le (inWindow 60 a)
      (List.replicate 99 (⟨Env.ok 0, 1, balanceReq⟩ : Event))
    have h3 : (if inWindow 60 a ⟨Env.ok 0, 60, balanceReq⟩ = true
        then [(⟨Env.ok 0, 60, balanceReq⟩ : Event)] else []).length ≤ 1 := by
      split <;> simp
    simp only [List.length_replicate] at h2
    omega

set_option maxRecDepth 100000 in
/-- C10 fails as stated, in two ways. A client that is not banned but whose counter stands
at 100 has its next request answered 429. And from the empty store, with no failure: the
first request arrives at second 0 and its `expire` takes effect one second after its `incr`,
99 requests arrive at second 1 and one at second 60; every half-open 60-second interval
holds at most 100 of them, yet the last one finds the counter at 100 and is answered 429. -/
theorem sparse_client_banned :
    truthy (redisGet fullWindowState.store 30 (blockedKey "9.9.9.9")) = false ∧
    (∀ a, ([overflowEvent].filter (inWindow 60 a)).length ≤ 100) ∧
    limiterTrace fullWindowState [overflowEvent] =
      [Outcome.respond 429 (Body.error "Too Many Requests")] ∧
    (∀ e ∈ laggedRun, e.req.ip = "9.9.9.9" ∧ isExempt e.req.path = false ∧
      e.env.noFailure = true) ∧
    laggedRun.Pairwise (fun a b => a.now ≤ b.now) ∧
    (∀ a, (laggedRun.filter (inWindow 60 a)).length ≤ 100) ∧
    limiterTrace State.empty laggedRun =
      List.replicate 100 Outcome.next ++
        [Outcome.respond 429 (Body.error "Too Many Requests")] ∧
    truthy (redisGet (limiterRun State.empty laggedRun).store 60 (blockedKey "9.9.9.9")) =
      true :=
  ⟨by decide, fun a => Nat.le_trans (List.length_filter_le _ _) (by decide), by decide,
    by decide, by decide, laggedRun_sparse, by decide, by decide⟩

/-- C10 (amended): let client C be not banned and without a live `rate:C` counter at `t0`,
and let C send non-exempt requests in time order from `t0` on, with no failing operation,
each `expire` taking effect at most `L` seconds after its `incr`, such that every half-open
interval of `60 + L` seconds contains at most 100 of them. Then every request is passed on,
every value returned by `incr` lies between 1 and 100, `blocked:C` is never written and no
alert is created. -/
theorem sparse_client_never_rejected (C : String) (L : Nat) (s : State) (t0 : Nat)
    (evs : List Event)
    (hev : ∀ e ∈ evs, e.req.ip = C ∧ isExempt e.req.path = false ∧ e.env.noFailure = true ∧
      e.env.expireLag ≤ L)
    (hfrom : ∀ e ∈ evs, t0 ≤ e.now)
    (hsorted : evs.Pairwise (fun a b => a.now ≤ b.now))
    (hsparse : ∀ a, (evs.filter (inWindow (60 + L) a)).length ≤ 100)
    (hnb : truthy (redisGet s.store t0 (blockedKey C)) = false)
    (hnw : lookup s.store t0 (rateKey C) = none) :
    limiterTrace s evs = List.replicate evs.length Outcome.next ∧
    (∀ c ∈ limiterCounts s evs, ∃ n : Int, c = some n ∧ 1 ≤ n ∧ n ≤ 100) ∧
    (∀ t, lookup (limiterRun s evs).store t (blockedKey C) = lookup s.store t (blockedKey C)) ∧
    (limiterRun s evs).alerts = s.alerts :=
  sparse_run C L evs s hev hsorted hsparse
    (fun e he => truthy_later _ _ _ _ (hfrom e he) hnb)
    (Or.inl (fun e he => lookup_none_later _ _ _ _ (hfrom e he) hnw))

theorem twoWindowRun_sparse (a : Nat) :
    (twoWindowRun.filter (inWindow (60 + 2) a)).length ≤ 100 := by
  simp only [twoWindowRun, List.filter_append, List.filter_replicate, List.length_append]
  by_cases ha : a ≤ 5
  · have h1 : inWindow (60 + 2) a ⟨Env.ok 0, 67, balanceReq⟩ = false := by
      simp [inWindow]; omega
    simp only [h1, Bool.false_eq_true, if_false, List.length_nil]
    split <;> simp
  · have h1 : inWindow (60 + 2) a ⟨lagEnv2, 5, balanceReq⟩ = false := by
      simp [inWindow]; omega
    simp only [h1, Bool.false_eq_true, if_false, List.length_nil]
    split <;> simp

theorem sparse_client_never_rejected_witness :
    lookup State.empty.store 5 (rateKey "9.9.9.9") = none ∧
    twoWindowRun.length = 200 ∧
    limiterTrace State.empty twoWindowRun = List.replicate twoWindowRun.length Outcome.next ∧
    (limiterRun State.empty twoWindowRun).alerts = State.empty.alerts :=
  ⟨by decide, by simp only [twoWindowRun, List.length_append, List.length_replicate],
    (sparse_client_never_rejected "9.9.9.9" 2 State.empty 5 twoWindowRun
      (by
        intro e he
        simp only [twoWindowRun, List.mem_append, List.mem_replicate] at he
        rcases he with ⟨-, rfl⟩ | ⟨-, rfl⟩ <;> decide)
      (by
        intro e he
        simp only [twoWindowRun, List.mem_append, List.mem_replicate] at he
        rcases he with ⟨-, rfl⟩ | ⟨-, rfl⟩ <;> decide)
      (by
        simp only [twoWindowRun, List.pairwise_append, List.pairwise_replicate,
          List.mem_replicate]
        refine ⟨Or.inr (Nat.le_refl _), Or.inr (Nat.le_refl _), ?_⟩
        rintro x ⟨-, rfl⟩ y ⟨-, rfl⟩
        decide)
      twoWindowRun_sparse (by decide) (by decide)).1,
    (sparse_client_never_rejected "9.9.9.9" 2 State.empty 5 twoWindowRun
      (by
        intro e he
        simp only [twoWindowRun, List.mem_append, List.mem_replicate] at he
        rcases he with ⟨-, rfl⟩ | ⟨-, rfl⟩ <;> decide)
      (by
        intro e he
        simp only [twoWindowRun, List.mem_append, List.mem_replicate] at he
        rcases he with ⟨-, rfl⟩ | ⟨-, rfl⟩ <;> decide)
      (by
        simp only [twoWindowRun, List.pairwise_append, List.pairwise_replicate,
          List.mem_replicate]
        refine ⟨Or.inr (Nat.le_refl _), Or.inr (Nat.le_refl _), ?_⟩
        rintro x ⟨-, rfl⟩ y ⟨-, rfl⟩
        decide)
      twoWindowRun_sparse (by decide) (by decide)).2.2.2⟩

/-! ## Alerts and ban transitions -/

theorem afterCount_alerts (env : Env) (now : Nat) (ip : String) (s : State) (st : Store)
    (n : Int) (cmds : List Cmd) :
    ((afterCount env now ip s st n cmds).outcome =
        Outcome.respond 429 (Body.error "Too Many Requests") ∧
      (afterCount env now ip s st n cmds).state.alerts = s.alerts ++ [banAlert now ip]) ∨
    ((∀ st2 b, (afterCount env now ip s st n cmds).outcome = Outcome.respond st2 b → st2 ≠ 429) ∧
      (afterCount env now ip s st n cmds).state.alerts = s.alerts) := by
  apply afterCount_cases
    (fun r => (r.outcome = Outcome.respond 429 (Body.error "Too Many Requests") ∧
        r.state.alerts = s.alerts ++ [banAlert now ip]) ∨
      ((∀ st2 b, r.outcome = Outcome.respond st2 b → st2 ≠ 429) ∧ r.state.alerts = s.alerts))
  · intro _; exact Or.inr ⟨fun _ _ h => (by cases h), rfl⟩
  · intro _ _; exact Or.inr ⟨fun _ _ h => (by cases h), rfl⟩
  · intro _ _ _; exact Or.inr ⟨fun _ _ h => (by cases h), rfl⟩
  · intro _ _ _; exact Or.inl ⟨rfl, rfl⟩

/-- `rateLimiter` adds an Alert exactly when it answers 429, and then exactly one, for the
requesting client. -/
theorem rateLimiter_alerts (env : Env) (now : Nat) (req : Req) (s : State) :
    ((rateLimiter env now req s).outcome =
        Outcome.respond 429 (Body.error "Too Many Requests") ∧
      (rateLimiter env now req s).state.alerts = s.alerts ++ [banAlert now req.ip]) ∨
    ((∀ st2 b, (rateLimiter env now req s).outcome = Outcome.respond st2 b → st2 ≠ 429) ∧
      (rateLimiter env now req s).state.alerts = s.alerts) := by
  apply rateLimiter_cases
    (fun r => (r.outcome = Outcome.respond 429 (Body.error "Too Many Requests") ∧
        r.state.alerts = s.alerts ++ [banAlert now req.ip]) ∨
      ((∀ st2 b, r.outcome = Outcome.respond st2 b → st2 ≠ 429) ∧ r.state.alerts = s.alerts))
  · intro _; exact Or.inr ⟨fun _ _ h => (by cases h), rfl⟩
  · intro _ _; exact Or.inr ⟨fun _ _ h => (by cases h), rfl⟩
  · intro _ _ _
    refine Or.inr ⟨fun st2 b h => ?_, rfl⟩
    simp only [Outcome.respond.injEq] at h
    omega
  · intro _ _ _ _; exact Or.inr ⟨fun _ _ h => (by cases h), rfl⟩
  · intro _ _ _ _ _ _ _; exact Or.inr ⟨fun _ _ h => (by cases h), rfl⟩
  · intro _ _ _ _ _ _ _; exact afterCount_alerts _ _ _ _ _ _ _
  · intro _ _ _ _ _ _ _ _; exact afterCount_alerts _ _ _ _ _ _ _

/-- The application adds an Alert exactly when it answers 429: one Alert of the requesting
client; any other request leaves the alerts as they were. -/
theorem app_alerts_step (env : Env) (now : Nat) (req : Req) (s : State) :
    ((app env now req s).final.status = some 429 →
      (app env now req s).state.alerts = s.alerts ++ [banAlert now req.ip]) ∧
    ((app env now req s).final.status ≠ some 429 →
      (app env now req s).state.alerts = s.alerts) := by
  constructor
  · intro h
    obtain ⟨hl, b, hb⟩ := app_429 env now req s h
    rw [app_of_respond _ _ _ _ 429 b hl hb]
    rcases rateLimiter_alerts env now req s with ⟨-, ha⟩ | ⟨ho, -⟩
    · exact ha
    · exact absurd rfl (ho 429 b hb)
  · intro h
    rcases app_state_cases env now req s with ⟨h2, -⟩ | ⟨-, -, -, h2⟩ | ⟨hl, -, h2⟩
    · rw [h2]
    · rw [h2]
    · rw [h2]
      rcases rateLimiter_alerts env now req s with ⟨ho, -⟩ | ⟨-, ha⟩
      · rw [app_of_respond _ _ _ _ 429 _ hl ho] at h
        simp [Final.status] at h
      · exact ha

theorem alertsOf_append (C : String) (xs ys : List Alert) :
    alertsOf C (xs ++ ys) = alertsOf C xs ++ alertsOf C ys := by
  simp [alertsOf]

/-- Along any run, the Alerts of C grow by one for each request of C answered 429 and by
nothing else. -/
theorem alerts_count_run (C : String) (evs : List Event) :
    ∀ s : State, (alertsOf C (appRun s evs).alerts).length =
      (alertsOf C s.alerts).length + banTransitions C s evs := by
  induction evs with
  | nil => intro s; rfl
  | cons e es ih =>
    intro s
    simp only [appRun, banTransitions]
    rw [ih]
    have hstep := app_alerts_step e.env e.now e.req s
    by_cases h429 : (app e.env e.now e.req s).final.status = some 429
    · rw [hstep.1 h429, alertsOf_append]
      by_cases hC : e.req.ip = C
      · simp [alertsOf, banAlert, hC, h429]; omega
      · simp [alertsOf, banAlert, hC]
    · rw [hstep.2 h429]
      simp [h429]

theorem appRun_append (s : State) (xs ys : List Event) :
    appRun s (xs ++ ys) = appRun (appRun s xs) ys := by
  induction xs generalizing s with
  | nil => rfl
  | cons e es ih => simp [appRun, ih]

theorem afterCount_alertedBans (env : Env) (now : Nat) (ip : String) (s : State) (st : Store)
    (n : Int) (cmds : List Cmd) (ha : env.alertSaveFails = false)
    (hst : ∀ C t, lookup st t (blockedKey C) = lookup s.store t (blockedKey C))
    (h : AlertedBans s) : AlertedBans (afterCount env now ip s st n cmds).state := by
  have hkeep : AlertedBans { s with store := st } := by
    intro C t hs
    exact h C t (by rw [← hst C t]; exact hs)
  apply afterCount_cases (fun r => AlertedBans r.state)
  · intro _; exact hkeep
  · intro _ _; exact hkeep
  · intro _ _ ha2; rw [ha] at ha2; cases ha2
  · intro _ _ _ C t hs
    by_cases hk : blockedKey ip = blockedKey C
    · exact ⟨banAlert now ip, by simp, blockedKey_inj _ _ hk⟩
    · simp only [lookup_redisSet_other _ _ _ _ _ hk] at hs
      obtain ⟨a, ha1, ha2⟩ := hkeep C t hs
      exact ⟨a, List.mem_append_left _ ha1, ha2⟩

theorem rateLimiter_alertedBans (env : Env) (now : Nat) (req : Req) (s : State)
    (hok : env.noFailure = true) (h : AlertedBans s) :
    AlertedBans (rateLimiter env now req s).state := by
  obtain ⟨-, -, he, -, -, ha, -, -⟩ := noFailure_fields env hok
  apply rateLimiter_cases (fun r => AlertedBans r.state)
  · intro _; exact h
  · intro _ _; exact h
  · intro _ _ _; exact h
  · intro _ _ _ _; exact h
  · intro _ _ _ _ _ _ he2; rw [he] at he2; cases he2
  · intro st1 _ _ _ _ hinc _
    apply afterCount_alertedBans _ _ _ _ _ _ _ ha _ h
    intro C t
    rw [lookup_redisExpire_other _ _ _ _ _ _ (rateKey_ne_blockedKey _ _),
      lookup_redisIncr_other _ _ _ _ _ _ _ hinc (rateKey_ne_blockedKey _ _)]
  · intro st1 n _ _ _ _ hinc _
    apply afterCount_alertedBans _ _ _ _ _ _ _ ha _ h
    intro C t
    rw [lookup_redisIncr_other _ _ _ _ _ _ _ hinc (rateKey_ne_blockedKey _ _)]

theorem app_alertedBans (env : Env) (now : Nat) (req : Req) (s : State)
    (hok : env.noFailure = true) (h : AlertedBans s) :
    AlertedBans (app env now req s).state := by
  rcases app_state_cases env now req s with ⟨h2, -⟩ | ⟨-, -, -, h2⟩ | ⟨-, h2, h3⟩
  · rw [h2]; exact h
  · rw [h2]
    intro C t hs
    simp [lookup] at hs
  · intro C t hs
    rw [h2] at hs
    rw [h3]
    exact rateLimiter_alertedBans env now req s hok h C t hs

theorem appRun_alertedBans (evs : List Event) :
    ∀ s : State, (∀ e ∈ evs, e.env.noFailure = true) → AlertedBans s →
      AlertedBans (appRun s evs) := by
  induction evs with
  | nil => intro s _ h; exact h
  | cons e es ih =>
    intro s hok h
    exact ih _ (fun x hx => hok x (List.mem_cons_of_mem _ hx))
      (app_alertedBans _ _ _ _ (hok e (List.mem_cons_self _ _)) h)

/-- C4: in every state reached from the empty state by requests and resets during which no
operation fails, the number of Alerts of C equals the number of requests of C answered 429;
whenever `blocked:C` is present an Alert of C exists; and in any state a request answered
429 leaves `blocked:C` written and adds exactly one Alert of its client, while a request
answered otherwise (passed on, 403, reset) adds none. -/
theorem alerts_match_ban_transitions (C : String) (evs : List Event)
    (hok : ∀ e ∈ evs, e.env.noFailure = true) :
    (alertsOf C (appRun State.empty evs).alerts).length = banTransitions C State.empty evs ∧
    (∀ t, (lookup (appRun State.empty evs).store t (blockedKey C)).isSome →
      ∃ a ∈ (appRun State.empty evs).alerts, a.ip = C) ∧
    (∀ (e : Event) (s : State),
      ((app e.env e.now e.req s).final.status = some 429 →
        Banned e.req.ip (app e.env e.now e.req s).state.store ∧
        (app e.env e.now e.req s).state.alerts = s.alerts ++ [banAlert e.now e.req.ip]) ∧
      ((app e.env e.now e.req s).final.status ≠ some 429 →
        (app e.env e.now e.req s).state.alerts = s.alerts)) := by
  refine ⟨?_, ?_, ?_⟩
  · rw [alerts_count_run C evs State.empty]
    simp [State.empty, alertsOf]
  · intro t hs
    have hinit : AlertedBans State.empty := by
      intro C t hs
      simp [State.empty, lookup] at hs
    exact appRun_alertedBans evs State.empty hok hinit C t hs
  · intro e s
    exact ⟨fun h => ⟨app_429_bans _ _ _ _ h, (app_alerts_step _ _ _ _).1 h⟩,
      (app_alerts_step _ _ _ _).2⟩

set_option maxRecDepth 100000 in
theorem alerts_match_ban_transitions_witness :
    (∀ e ∈ banRun, e.env.noFailure = true) ∧
    banTransitions "9.9.9.9" State.empty banRun = 1 ∧
    (alertsOf "9.9.9.9" (appRun State.empty banRun).alerts).length =
      banTransitions "9.9.9.9" State.empty banRun ∧
    (lookup (appRun State.empty banRun).store 7 (blockedKey "9.9.9.9")).isSome = true ∧
    (∃ a ∈ (appRun State.empty banRun).alerts, a.ip = "9.9.9.9") :=
  ⟨by decide, by decide,
    (alerts_match_ban_transitions "9.9.9.9" banRun (by decide)).1,
    by decide,
    (alerts_match_ban_transitions "9.9.9.9" banRun (by decide)).2.1 7 (by decide)⟩

/-! ## Arming of the window -/

theorem banned_put_rate (C ip : String) (st : Store) (e : Entry) (h : Banned C st) :
    Banned C (put st (rateKey ip) e) := by
  intro t
  rw [lookup_put_other _ _ _ _ _ (rateKey_ne_blockedKey ip C)]
  exact h t

theorem windowInv_put_rate (st : Store) (ip : String) (n : Int) (d : Nat)
    (h : WindowInv st) (h1 : 1 ≤ n) (h2 : n ≤ 100) :
    WindowInv (put st (rateKey ip) ⟨RVal.int n, some d⟩) := by
  intro ip2 t e hl
  rw [lookup_put] at hl
  by_cases hk : rateKey ip = rateKey ip2
  · simp only [hk, if_true] at hl
    split at hl
    · simp only [Option.some.injEq] at hl
      exact ⟨n, d, hl.symm, h1, by omega, fun h3 => by omega⟩
    · cases hl
  · simp only [hk, if_false] at hl
    obtain ⟨m, d2, he, hm1, hm2, hb⟩ := h ip2 t e hl
    exact ⟨m, d2, he, hm1, hm2, fun h3 => banned_put_rate _ _ _ _ (hb h3)⟩

theorem windowInv_open (st : Store) (ip : String) (d : Nat) (e0 : Entry) (h : WindowInv st) :
    WindowInv (put (put st (rateKey ip) e0) (rateKey ip) ⟨RVal.int 1, some d⟩) := by
  intro ip2 t e hl
  rw [lookup_put] at hl
  by_cases hk : rateKey ip = rateKey ip2
  · simp only [hk, if_true] at hl
    split at hl
    · simp only [Option.some.injEq] at hl
      exact ⟨1, d, hl.symm, by omega, by omega, fun h3 => by omega⟩
    · cases hl
  · simp only [hk, if_false] at hl
    rw [lookup_put_other _ _ _ _ _ hk] at hl
    obtain ⟨m, d2, he, hm1, hm2, hb⟩ := h ip2 t e hl
    exact ⟨m, d2, he, hm1, hm2,
      fun h3 => banned_put_rate _ _ _ _ (banned_put_rate _ _ _ _ (hb h3))⟩

theorem windowInv_ban (st : Store) (ip : String) (d : Nat) (h : WindowInv st) :
    WindowInv (redisSet (put st (rateKey ip) ⟨RVal.int 101, some d⟩) (blockedKey ip) "true") := by
  intro ip2 t e hl
  rw [lookup_redisSet_other _ _ _ _ _ (blockedKey_ne_rateKey ip ip2), lookup_put] at hl
  by_cases hk : rateKey ip = rateKey ip2
  · simp only [hk, if_true] at hl
    split at hl
    · simp only [Option.some.injEq] at hl
      refine ⟨101, d, hl.symm, by omega, by omega, fun _ => ?_⟩
      rw [← rateKey_inj _ _ hk]
      intro t2
      exact lookup_redisSet_same _ t2 _ _
    · cases hl
  · simp only [hk, if_false] at hl
    obtain ⟨m, d2, he, hm1, hm2, hb⟩ := h ip2 t e hl
    exact ⟨m, d2, he, hm1, hm2,
      fun h3 => banned_redisSet _ _ _ (banned_put_rate _ _ _ _ (hb h3))⟩

/-- What a failure-free step of a client that is not banned does in a store satisfying
`WindowInv`: it either creates the counter at 1 with a deadline 60 seconds after its
`expire` (which it calls),
or adds one to an existing counter between 1 and 100 and keeps its deadline (not calling
`expire`). -/
theorem armed_step (env : Env) (now : Nat) (req : Req) (s : State)
    (hok : env.noFailure = true) (hx : isExempt req.path = false)
    (hb : truthy (redisGet s.store now (blockedKey req.ip)) = false)
    (hinv : WindowInv s.store) :
    (lookup s.store now (rateKey req.ip) = none ∧
      rateLimiter env now req s =
        ⟨{ s with store := put (put s.store (rateKey req.ip) ⟨RVal.int 1, none⟩)
                            (rateKey req.ip) ⟨RVal.int 1, some (now + env.expireLag + 60)⟩ },
          Outcome.next,
          [Cmd.get (blockedKey req.ip), Cmd.incr (rateKey req.ip),
            Cmd.expire (rateKey req.ip) 60],
          some 1⟩) ∨
    (∃ (n : Int) (d : Nat), 1 ≤ n ∧ n < 100 ∧
      lookup s.store now (rateKey req.ip) = some ⟨RVal.int n, some d⟩ ∧
      rateLimiter env now req s =
        ⟨{ s with store := put s.store (rateKey req.ip) ⟨RVal.int (n + 1), some d⟩ },
          Outcome.next, [Cmd.get (blockedKey req.ip), Cmd.incr (rateKey req.ip)],
          some (n + 1)⟩) ∨
    (∃ d : Nat, lookup s.store now (rateKey req.ip) = some ⟨RVal.int 100, some d⟩ ∧
      rateLimiter env now req s =
        ⟨{ s with store := redisSet (put s.store (rateKey req.ip) ⟨RVal.int 101, some d⟩)
                            (blockedKey req.ip) "true",
                  alerts := s.alerts ++ [banAlert now req.ip] },
          Outcome.respond 429 (Body.error "Too Many Requests"),
          [Cmd.get (blockedKey req.ip), Cmd.incr (rateKey req.ip),
            Cmd.set (blockedKey req.ip) "true"],
          some 101⟩) := by
  obtain ⟨hg, hi, he, hs, -, ha, -, -⟩ := noFailure_fields env hok
  cases hl : lookup s.store now (rateKey req.ip) with
  | none => exact Or.inl ⟨rfl, step_open env now req s hx hg hb hi he hl⟩
  | some e =>
    obtain ⟨n, d, rfl, h1, h2, hban⟩ := hinv req.ip now e hl
    have hne : n ≠ 101 := by
      intro h3
      have h4 := hban h3 now
      simp [redisGet, h4, truthy] at hb
    by_cases h100 : n < 100
    · exact Or.inr (Or.inl ⟨n, d, h1, h100, rfl,
        step_count env now req s n (some d) hx hg hb hi hl h1 h100⟩)
    · have h5 : n = 100 := by omega
      subst h5
      exact Or.inr (Or.inr ⟨d, rfl,
        step_ban env now req s 100 (some d) hx hg hb hi hs ha hl (by omega) (by decide)⟩)

theorem rateLimiter_windowInv (env : Env) (now : Nat) (req : Req) (s : State)
    (hok : env.noFailure = true) (h : WindowInv s.store) :
    WindowInv (rateLimiter env now req s).state.store := by
  obtain ⟨hg, -, -, -, -, -, -, -⟩ := noFailure_fields env hok
  cases hx : isExempt req.path with
  | true => simpa [rateLimiter, hx] using h
  | false =>
    cases hb : truthy (redisGet s.store now (blockedKey req.ip)) with
    | true => rw [rateLimiter_banned env now req s hx hg hb]; exact h
    | false =>
      rcases armed_step env now req s hok hx hb h with ⟨-, hs⟩ | ⟨n, d, h1, h2, -, hs⟩ | ⟨d, -, hs⟩
      · rw [hs]; exact windowInv_open _ _ _ _ h
      · rw [hs]; exact windowInv_put_rate _ _ _ _ h (by omega) (by omega)
      · rw [hs]; exact windowInv_ban _ _ _ h

theorem appRun_windowInv (evs : List Event) :
    ∀ s : State, (∀ e ∈ evs, e.env.noFailure = true) → WindowInv s.store →
      WindowInv (appRun s evs).store := by
  induction evs with
  | nil => intro s _ h; exact h
  | cons e es ih =>
    intro s hok h
    refine ih _ (fun x hx => hok x (List.mem_cons_of_mem _ hx)) ?_
    have hoke := hok e (List.mem_cons_self _ _)
    rcases app_state_cases e.env e.now e.req s with ⟨h2, -⟩ | ⟨-, -, -, h2⟩ | ⟨-, h2, -⟩
    · rw [h2]; exact h
    · rw [h2]
      intro ip t x hl
      simp [lookup] at hl
    · rw [h2]
      exact rateLimiter_windowInv _ _ _ _ hoke h

theorem counterInv_put_rate (st : Store) (ip : String) (n : Int) (ttl : Option Nat)
    (h : CounterInv st) (h1 : 1 ≤ n) : CounterInv (put st (rateKey ip) ⟨RVal.int n, ttl⟩) := by
  intro ip2 t e hl
  rw [lookup_put] at hl
  by_cases hk : rateKey ip = rateKey ip2
  · simp only [hk, if_true] at hl
    split at hl
    · simp only [Option.some.injEq] at hl
      exact ⟨n, ttl, hl.symm, h1⟩
    · cases hl
  · simp only [hk, if_false] at hl
    exact h ip2 t e hl

/-- In a store whose counters are at least 1, `incr` answers 1 exactly when it creates the
key, and it keeps all counters at least 1. -/
theorem counterInv_redisIncr (st st1 : Store) (now : Nat) (ip : String) (n : Int)
    (h : CounterInv st) (hinc : redisIncr st now (rateKey ip) = some (st1, n)) :
    CounterInv st1 ∧ (n = 1 ↔ lookup st now (rateKey ip) = none) := by
  cases hl : lookup st now (rateKey ip) with
  | none =>
    rw [redisIncr_of_lookup_none _ _ _ hl] at hinc
    simp only [Option.some.injEq, Prod.mk.injEq] at hinc
    rw [← hinc.1, ← hinc.2]
    exact ⟨counterInv_put_rate _ _ _ _ h (by omega), by simp⟩
  | some e =>
    obtain ⟨m, ttl, rfl, hm⟩ := h ip now e hl
    by_cases hmax : m = int64Max
    · simp [redisIncr, hl, hmax] at hinc
    · rw [redisIncr_of_lookup_int _ _ _ m ttl hl hmax] at hinc
      simp only [Option.some.injEq, Prod.mk.injEq] at hinc
      rw [← hinc.1, ← hinc.2]
      refine ⟨counterInv_put_rate _ _ _ _ h (by omega), ?_⟩
      simp only [reduceCtorEq, iff_false]
      omega

theorem counterInv_redisExpire (st : Store) (now : Nat) (ip : String) (secs : Nat)
    (h : CounterInv st) : CounterInv (redisExpire st now (rateKey ip) secs) := by
  unfold redisExpire
  cases hl : lookup st now (rateKey ip) with
  | none => exact h
  | some e =>
    obtain ⟨m, ttl, rfl, hm⟩ := h ip now e hl
    exact counterInv_put_rate _ _ _ _ h hm

theorem counterInv_redisSet (st : Store) (ip v : String) (h : CounterInv st) :
    CounterInv (redisSet st (blockedKey ip) v) := by
  intro ip2 t e hl
  rw [lookup_redisSet_other _ _ _ _ _ (blockedKey_ne_rateKey ip ip2)] at hl
  exact h ip2 t e hl

theorem afterCount_counterInv (env : Env) (now : Nat) (ip : String) (s : State) (st : Store)
    (n : Int) (cmds : List Cmd) (h : CounterInv st) :
    CounterInv (afterCount env now ip s st n cmds).state.store := by
  apply afterCount_cases (fun r => CounterInv r.state.store) <;> intros <;>
    first | exact h | exact counterInv_redisSet st ip "true" h

theorem rateLimiter_counterInv (env : Env) (now : Nat) (req : Req) (s : State)
    (h : CounterInv s.store) : CounterInv (rateLimiter env now req s).state.store := by
  apply rateLimiter_cases (fun r => CounterInv r.state.store)
  · intro _; exact h
  · intro _ _; exact h
  · intro _ _ _; exact h
  · intro _ _ _ _; exact h
  · intro st1 _ _ _ _ hinc _; exact (counterInv_redisIncr _ _ _ _ _ h hinc).1
  · intro st1 _ _ _ _ hinc _
    exact afterCount_counterInv _ _ _ _ _ _ _
      (counterInv_redisExpire _ _ _ _ (counterInv_redisIncr _ _ _ _ _ h hinc).1)
  · intro st1 n _ _ _ _ hinc _
    exact afterCount_counterInv _ _ _ _ _ _ _ (counterInv_redisIncr _ _ _ _ _ h hinc).1

/-- In every state reached from the empty state, whatever failed on the way, all window
counters are at least 1. -/
theorem appRun_counterInv (evs : List Event) :
    ∀ s : State, CounterInv s.store → CounterInv (appRun s evs).store := by
  induction evs with
  | nil => intro s h; exact h
  | cons e es ih =>
    intro s h
    refine ih _ ?_
    rcases app_state_cases e.env e.now e.req s with ⟨h2, -⟩ | ⟨-, -, -, h2⟩ | ⟨-, h2, -⟩
    · rw [h2]; exact h
    · rw [h2]
      intro ip t x hl
      simp [lookup] at hl
    · rw [h2]
      exact rateLimiter_counterInv _ _ _ _ h

/-- C7: (1) in any state, when a non-exempt request of a client that is not banned gets a
value from `incr(rate:C)`, `rateLimiter` calls `expire(rate:C, 60)` if and only if that value
is 1. (2) In every state reached from the empty state, that value is 1 exactly when `rate:C`
does not exist, that is, when the counter is created. (3) In every state reached from the
empty state with no failing operation, the created counter gets its deadline 60 seconds
after the instant `now + expireLag` at which that `expire` takes effect, and a request that
finds the counter issues no `expire` at all and leaves its deadline as it was. -/
theorem expire_only_on_creation :
    (∀ (env : Env) (now : Nat) (req : Req) (s : State) (st1 : Store) (n : Int),
      isExempt req.path = false → env.getFails = false →
      truthy (redisGet s.store now (blockedKey req.ip)) = false → env.incrFails = false →
      redisIncr s.store now (rateKey req.ip) = some (st1, n) →
      (Cmd.expire (rateKey req.ip) 60 ∈ (rateLimiter env now req s).cmds ↔ n = 1)) ∧
    (∀ (evs : List Event) (now : Nat) (req : Req) (st1 : Store) (n : Int),
      redisIncr (appRun State.empty evs).store now (rateKey req.ip) = some (st1, n) →
      (n = 1 ↔ lookup (appRun State.empty evs).store now (rateKey req.ip) = none)) ∧
    (∀ (evs : List Event) (env : Env) (now : Nat) (req : Req),
      (∀ e ∈ evs, e.env.noFailure = true) → env.noFailure = true →
      isExempt req.path = false →
      truthy (redisGet (appRun State.empty evs).store now (blockedKey req.ip)) = false →
      (lookup (appRun State.empty evs).store now (rateKey req.ip) = none →
        (rateLimiter env now req (appRun State.empty evs)).count = some 1 ∧
        Cmd.expire (rateKey req.ip) 60 ∈
          (rateLimiter env now req (appRun State.empty evs)).cmds ∧
        lookup (rateLimiter env now req (appRun State.empty evs)).state.store now
          (rateKey req.ip) = some ⟨RVal.int 1, some (now + env.expireLag + 60)⟩) ∧
      (∀ e, lookup (appRun State.empty evs).store now (rateKey req.ip) = some e →
        ∃ (n : Int) (d : Nat), e = ⟨RVal.int n, some d⟩ ∧ 1 ≤ n ∧ now < d ∧
          (rateLimiter env now req (appRun State.empty evs)).count = some (n + 1) ∧
          (∀ secs, Cmd.expire (rateKey req.ip) secs ∉
            (rateLimiter env now req (appRun State.empty evs)).cmds) ∧
          lookup (rateLimiter env now req (appRun State.empty evs)).state.store now
            (rateKey req.ip) = some ⟨RVal.int (n + 1), some d⟩)) := by
  refine ⟨?_, ?_, ?_⟩
  · intro env now req s st1 n hx hg hb hi hinc
    rw [rateLimiter_counted env now req s st1 n hx hg hb hi hinc]
    by_cases h1 : n = 1
    · subst h1
      simp only [if_true, iff_true]
      cases env.expireFails with
      | true => simp
      | false =>
        simp only [Bool.false_eq_true, if_false]
        apply afterCount_cases (fun r => Cmd.expire (rateKey req.ip) 60 ∈ r.cmds) <;>
          intros <;> simp
    · simp only [h1, if_false, iff_false]
      apply afterCount_cases (fun r => Cmd.expire (rateKey req.ip) 60 ∉ r.cmds) <;>
        intros <;> simp
  · intro evs now req st1 n hinc
    have hinv : CounterInv (appRun State.empty evs).store :=
      appRun_counterInv evs State.empty (by
        intro ip t e hl
        simp [State.empty, lookup] at hl)
    exact (counterInv_redisIncr _ _ _ _ _ hinv hinc).2
  · intro evs env now req hoks hok hx hb
    have hinv : WindowInv (appRun State.empty evs).store :=
      appRun_windowInv evs State.empty hoks (by
        intro ip t e hl
        simp [State.empty, lookup] at hl)
    have hlive : ∀ (st : Store) (k : String) (v : RVal) (d : Nat),
        lookup st now k = some ⟨v, some d⟩ → now < d := by
      intro st k v d hl
      induction st with
      | nil => simp [lookup] at hl
      | cons hd tl ih =>
        obtain ⟨a, x⟩ := hd
        simp only [lookup] at hl
        split at hl
        · split at hl
          · rename_i hlv
            simp only [Option.some.injEq] at hl
            subst hl
            simpa [Entry.live] using hlv
          · cases hl
        · exact ih hl
    rcases armed_step env now req _ hok hx hb hinv with
      ⟨hl, hs⟩ | ⟨n, d, h1, h2, hl, hs⟩ | ⟨d, hl, hs⟩
    · refine ⟨fun _ => ?_, fun e he => by rw [hl] at he; cases he⟩
      rw [hs]
      have hlt : now < now + env.expireLag + 60 := by omega
      exact ⟨rfl, by simp, by simp [lookup_put, Entry.live, hlt]⟩
    · refine ⟨fun h0 => (by rw [hl] at h0; cases h0), fun e he => ?_⟩
      rw [hl] at he
      simp only [Option.some.injEq] at he
      have hd := hlive _ _ _ _ hl
      rw [hs]
      exact ⟨n, d, he.symm, h1, hd, rfl, by simp, by simp [lookup_put, Entry.live, hd]⟩
    · refine ⟨fun h0 => (by rw [hl] at h0; cases h0), fun e he => ?_⟩
      rw [hl] at he
      simp only [Option.some.injEq] at he
      have hd := hlive _ _ _ _ hl
      rw [hs]
      refine ⟨100, d, he.symm, by omega, hd, rfl, by simp, ?_⟩
      rw [lookup_redisSet_other _ _ _ _ _ (blockedKey_ne_rateKey _ _)]
      simp [lookup_put, Entry.live, hd]

theorem expire_only_on_creation_witness :
    redisIncr State.empty.store 5 (rateKey balanceReq.ip) =
      some ([("rate:9.9.9.9", ⟨RVal.int 1, none⟩)], 1) ∧
    (Cmd.expire (rateKey balanceReq.ip) 60 ∈
      (rateLimiter (Env.ok 0) 5 balanceReq State.empty).cmds ↔ (1 : Int) = 1) :=
  ⟨by decide,
    expire_only_on_creation.1 (Env.ok 0) 5 balanceReq State.empty
      [("rate:9.9.9.9", ⟨RVal.int 1, none⟩)] 1 (by decide) (by decide) (by decide) (by decide)
      (by decide)⟩

end ApiAbuse
